import Mathlib

/-!
# Verification of the grin-pool stratum proxy core

Shallow embedding of the share-accounting and wire-encoding pipeline of the
`grin-pool` stratum proxy (`src/stratum/src/pool/`): the correlation-id
encode/decode convention, the upstream `Server::process_message` dispatch, the
worker login validation, the worker `submit` handling, and the Kafka `Share`
record construction.

Rust machine integers are modelled as `Nat`/`Int` with explicit range checks
where the source performs a fallible `parse`, and panics (`unwrap`,
out-of-bounds indexing, `copy_from_slice` length mismatch) are modelled as an
explicit `none`/`panic` outcome.  Strings are modelled as `List Char` at the
working level (`String` at the API boundary); Rust's byte-oriented `str::len`
is modelled by `byteLen`, the sum of the UTF-8 widths of the characters.

The file is organised as definitions first, then theorems.
-/

namespace GrinPool

/-! ## Definitions: generic string helpers -/

/-- UTF-8 byte width of a character (Rust `char::len_utf8`). -/
def utf8Width (c : Char) : Nat :=
  if c.toNat < 0x80 then 1
  else if c.toNat < 0x800 then 2
  else if c.toNat < 0x10000 then 3
  else 4

/-- Rust `str::len`: the number of UTF-8 bytes of the string. -/
def byteLen (cs : List Char) : Nat := (cs.map utf8Width).sum

/-- Rust `str::split(sep)` on a single-character separator: always yields at
least one (possibly empty) part; `n` separators yield `n + 1` parts. -/
def splitOnChar (sep : Char) : List Char → List (List Char)
  | [] => [[]]
  | c :: rest =>
    if c = sep then [] :: splitOnChar sep rest
    else
      match splitOnChar sep rest with
      | g :: gs => (c :: g) :: gs
      | [] => [[c]]

/-! ## Definitions: decimal rendering and parsing

`natDigits` models Rust's `u64::to_string`/`usize::to_string`/`format!("{}")`
(standard decimal, no sign, no leading zeros).  `parseUnsigned bound` models
Rust's `str::parse::<uN>()`: an optional leading `+`, one or more decimal
digits, overflow (value ≥ bound) is an error.  `parseI32` models
`str::parse::<i32>()` with an optional `+`/`-` sign. -/

/-- The decimal digit characters. -/
def digitChar : Nat → Char
  | 0 => '0' | 1 => '1' | 2 => '2' | 3 => '3' | 4 => '4'
  | 5 => '5' | 6 => '6' | 7 => '7' | 8 => '8' | _ => '9'

/-- Standard decimal rendering, fuel-driven so that it reduces in the kernel;
the fuel is irrelevant above the value (`natDigitsAux_irrel`). -/
def natDigitsAux : Nat → Nat → List Char
  | 0, _ => []
  | fuel + 1, n =>
    if n < 10 then [digitChar n]
    else natDigitsAux fuel (n / 10) ++ [digitChar (n % 10)]

/-- Standard decimal rendering of a natural number (Rust `u64::to_string`). -/
def natDigits (n : Nat) : List Char := natDigitsAux (n + 1) n

def isDigitC (c : Char) : Bool := 48 ≤ c.toNat && c.toNat ≤ 57

/-- Numeric value of a digit character. -/
def digitVal (c : Char) : Nat := c.toNat - 48

/-- Decimal value of a digit string (left fold, most significant first). -/
def digitsVal (cs : List Char) : Nat :=
  cs.foldl (fun a c => a * 10 + digitVal c) 0

/-- Strip one optional leading `+` (Rust unsigned `parse` accepts it). -/
def stripPlus : List Char → List Char
  | '+' :: rest => rest
  | cs => cs

/-- Rust `str::parse::<uN>()` where `bound` is `2^N`. -/
def parseUnsigned (bound : Nat) (cs : List Char) : Option Nat :=
  let cs := stripPlus cs
  if cs ≠ [] && cs.all isDigitC && digitsVal cs < bound then
    some (digitsVal cs)
  else none

/-- Rust `str::parse::<i32>()`. -/
def parseI32 (cs : List Char) : Option Int :=
  match cs with
  | '-' :: rest =>
    if rest ≠ [] && rest.all isDigitC && digitsVal rest ≤ 2 ^ 31 then
      some (-(digitsVal rest : Int))
    else none
  | _ =>
    let cs := stripPlus cs
    if cs ≠ [] && cs.all isDigitC && digitsVal cs < 2 ^ 31 then
      some ((digitsVal cs : Int))
    else none

/-! ## Definitions: base64 (standard alphabet, `=` padding)

Models the `base64` crate's `encode`/`decode` with the default (standard)
configuration as used by `server.rs`: `decode` rejects characters outside the
alphabet, lengths not a multiple of four, padding anywhere but the final
group, and non-canonical trailing bits. -/

def b64Alphabet : List Char :=
  "ABCDEFGHIJKLMNOPQRSTUVWXYZabcdefghijklmnopqrstuvwxyz0123456789+/".toList

def sextetChar (n : Nat) : Char := b64Alphabet.getD n 'A'

def sextetOf (c : Char) : Option Nat :=
  let i := b64Alphabet.indexOf c
  if i < 64 then some i else none

/-- `base64::encode` on a byte list (bytes are `Nat`s below 256). -/
def b64EncodeBytes : List Nat → List Char
  | [] => []
  | [b1] => [sextetChar (b1 / 4), sextetChar (b1 % 4 * 16), '=', '=']
  | [b1, b2] =>
    [sextetChar (b1 / 4), sextetChar (b1 % 4 * 16 + b2 / 16), sextetChar (b2 % 16 * 4), '=']
  | b1 :: b2 :: b3 :: rest =>
    sextetChar (b1 / 4) :: sextetChar (b1 % 4 * 16 + b2 / 16) ::
      sextetChar (b2 % 16 * 4 + b3 / 64) :: sextetChar (b3 % 64) :: b64EncodeBytes rest

/-- `base64::decode` on a character list; `none` is a decode error. -/
def b64DecodeChars : List Char → Option (List Nat)
  | [] => some []
  | c1 :: c2 :: c3 :: c4 :: rest =>
    (sextetOf c1).bind fun s1 =>
      (sextetOf c2).bind fun s2 =>
        if c3 = '=' then
          if c4 = '=' && rest.isEmpty && s2 % 16 == 0 then some [s1 * 4 + s2 / 16] else none
        else
          (sextetOf c3).bind fun s3 =>
            if c4 = '=' then
              if rest.isEmpty && s3 % 4 == 0 then
                some [s1 * 4 + s2 / 16, s2 % 16 * 16 + s3 / 4]
              else none
            else
              (sextetOf c4).bind fun s4 =>
                (b64DecodeChars rest).map
                  (fun t =>
                    (s1 * 4 + s2 / 16) :: (s2 % 16 * 16 + s3 / 4) :: (s3 % 4 * 64 + s4) :: t)
  | _ => none

def base64DecodeStr (s : String) : Option (List Nat) := b64DecodeChars s.toList

/-! ## Definitions: UTF-8 decoding

Models Rust's `std::str::from_utf8` (strict UTF-8: continuation bytes checked,
overlong encodings, surrogates and values above U+10FFFF rejected). -/

/-- Decode one UTF-8 scalar value from the head of the byte stream: the ASCII
fast path, then 2-, 3- and 4-byte sequences with continuation-byte checks and
rejection of overlong forms, surrogates and values above U+10FFFF. -/
def utf8Step (b : Nat) (rest : List Nat) : Option (Char × List Nat) :=
  if b < 0x80 then some (Char.ofNat b, rest)
  else if b < 0xC2 then none
  else if b < 0xE0 then
    match rest with
    | b2 :: rest2 =>
      if 0x80 ≤ b2 && b2 < 0xC0 then
        some (Char.ofNat ((b - 0xC0) * 64 + (b2 - 0x80)), rest2)
      else none
    | [] => none
  else if b < 0xF0 then
    match rest with
    | b2 :: b3 :: rest3 =>
      if (0x80 ≤ b2 && b2 < 0xC0) && (0x80 ≤ b3 && b3 < 0xC0) then
        if 0x800 ≤ (b - 0xE0) * 4096 + (b2 - 0x80) * 64 + (b3 - 0x80) &&
            !(0xD800 ≤ (b - 0xE0) * 4096 + (b2 - 0x80) * 64 + (b3 - 0x80) &&
              (b - 0xE0) * 4096 + (b2 - 0x80) * 64 + (b3 - 0x80) < 0xE000) then
          some (Char.ofNat ((b - 0xE0) * 4096 + (b2 - 0x80) * 64 + (b3 - 0x80)), rest3)
        else none
      else none
    | _ => none
  else if b < 0xF5 then
    match rest with
    | b2 :: b3 :: b4 :: rest4 =>
      if (0x80 ≤ b2 && b2 < 0xC0) && (0x80 ≤ b3 && b3 < 0xC0) && (0x80 ≤ b4 && b4 < 0xC0) then
        if 0x10000 ≤ (b - 0xF0) * 262144 + (b2 - 0x80) * 4096 + (b3 - 0x80) * 64 + (b4 - 0x80) &&
            (b - 0xF0) * 262144 + (b2 - 0x80) * 4096 + (b3 - 0x80) * 64 + (b4 - 0x80)
              < 0x110000 then
          some (Char.ofNat
            ((b - 0xF0) * 262144 + (b2 - 0x80) * 4096 + (b3 - 0x80) * 64 + (b4 - 0x80)), rest4)
        else none
      else none
    | _ => none
  else none

/-- Fuel-driven UTF-8 decoding; `utf8Decode` supplies fuel equal to the list
length, which by `utf8Step_length` never runs out before the list empties
(`utf8DecodeAux_irrel` shows the choice of fuel is canonical). -/
def utf8DecodeAux : Nat → List Nat → Option (List Char)
  | _, [] => some []
  | 0, _ :: _ => none
  | fuel + 1, b :: rest =>
    match utf8Step b rest with
    | some (c, rest') => (utf8DecodeAux fuel rest').map (c :: ·)
    | none => none

/-- Rust `std::str::from_utf8` (strict UTF-8 validation). -/
def utf8Decode (bs : List Nat) : Option (List Char) := utf8DecodeAux bs.length bs

/-! ## Definitions: correlation-id codec

`Server::submit_share` (`server.rs` lines 178–199) sends each upstream submit
with correlation id `base64::encode(format!("{}+{}", worker_id,
solution.as_string()))`; the submit-response arm of `Server::process_message`
(`server.rs` lines 356–393) decodes it back. -/

/-- Modelled from the spec: `SubmitParams` lives in `pool/proto.rs`, which is
not among the provided sources.  Per §3 of the spec the correlation envelope
is `"<worker_id>+<height>+<job_id>+<nonce>+<edge_bits>"`, and the decode arm
reads the fields back in that order, so the submission record carries a
height, a job id, a nonce and the edge-bits parameter. -/
structure SubmitParams where
  height : Nat
  job_id : Nat
  nonce : Nat
  edge_bits : Nat
deriving Repr, DecidableEq

/-- Modelled from the spec: `SubmitParams::as_string` (in the missing
`pool/proto.rs`) renders `"<height>+<job_id>+<nonce>+<edge_bits>"`, the tail
of the §3 correlation envelope. -/
def SubmitParams.as_string (s : SubmitParams) : List Char :=
  natDigits s.height ++ '+' ::
    (natDigits s.job_id ++ '+' :: (natDigits s.nonce ++ '+' :: natDigits s.edge_bits))

/-- The plaintext of the correlation id:
`format!("{}+{}", worker_id.to_string(), solution.as_string())`. -/
def submitIdPlain (workerId : Nat) (s : SubmitParams) : List Char :=
  natDigits workerId ++ '+' :: s.as_string

/-- The correlation id sent by `Server::submit_share`. -/
def encodeSubmitId (workerId : Nat) (s : SubmitParams) : String :=
  (b64EncodeBytes ((submitIdPlain workerId s).map Char.toNat)).asString

/-- Outcome of decoding a submit-response correlation id.  `panic` marks the
places where the source calls `unwrap` on a failed result or indexes out of
bounds; `err` is a clean `RpcError`-return with the given code and message. -/
inductive IdDecode where
  | panic : IdDecode
  | err : Int → String → IdDecode
  | ok : Nat → Int → Nat → Nat → Nat → IdDecode
deriving Repr, DecidableEq

/-- A failed `Option` is a source `unwrap()` or out-of-bounds index: panic. -/
def orPanic {α : Type} (o : Option α) (k : α → IdDecode) : IdDecode :=
  match o with
  | none => .panic
  | some a => k a

/-- A failed `Option` is a clean early `return Err(..)` in the source. -/
def orErr {α : Type} (o : Option α) (e : IdDecode) (k : α → IdDecode) : IdDecode :=
  match o with
  | none => e
  | some a => k a

/-- The correlation-id decode of the `"submit"` response arm of
`Server::process_message` (`server.rs` lines 356–393):
`base64::decode(&res.id)` then `.unwrap()` (panic on invalid base64),
`str::from_utf8` (clean `-1 Invalid Worker ID` error on invalid UTF-8),
split on `'+'`, `v[0].parse::<usize>()` (clean error on failure; `v[0]`
always exists because `split` yields at least one part),
then `v[1..4]` indexing and `.unwrap()`-ed parses of height (`i32`),
job id (`u64`), nonce (`u64`) and edge bits (`u32`) — each of which panics
on a missing field or a failed parse. -/
def decodeSubmitId (id : String) : IdDecode :=
  orPanic (b64DecodeChars id.toList) fun bytes =>
  orErr (utf8Decode bytes) (.err (-1) "Invalid Worker ID") fun o =>
  orErr (parseUnsigned (2 ^ 64) ((splitOnChar '+' o).headD []))
      (.err (-1) "Invalid Worker ID") fun w =>
  orPanic ((splitOnChar '+' o).get? 1) fun f1 =>
  orPanic (parseI32 f1) fun height =>
  orPanic ((splitOnChar '+' o).get? 2) fun f2 =>
  orPanic (parseUnsigned (2 ^ 64) f2) fun jobId =>
  orPanic ((splitOnChar '+' o).get? 3) fun f3 =>
  orPanic (parseUnsigned (2 ^ 64) f3) fun nonce =>
  orPanic ((splitOnChar '+' o).get? 4) fun f4 =>
  orPanic (parseUnsigned (2 ^ 32) f4) fun edgeBits =>
  .ok w height jobId nonce edgeBits

/-! ## Definitions: the Kafka `Share` record (`src/stratum/src/pool/kafka/share.rs`)

The claims cite `kafka/share.rs` (fixed-width `[char; 46]` full-name buffer);
the older duplicate in `kafka.rs` (variable-length name, limit 38) is the
versioning inconsistency flagged in spec §9 and is not modelled here. -/

/-- `share.rs` line 6. -/
def FULLNAME_LIMIT : Nat := 46

/-- `share.rs` lines 10–15; `#[repr(i32)]` with `Reject = 0`, `Accept = 1`. -/
inductive SubmitResult where
  | Reject : SubmitResult
  | Accept : SubmitResult
deriving Repr, DecidableEq

/-- `result as i32`. -/
def SubmitResult.toI32 : SubmitResult → Int
  | .Reject => 0
  | .Accept => 1

/-- `get_inet_addr` (`share.rs` lines 17–26): split on `':'` and index parts 0
and 1 (panic — `none` — when there is no `':'`); split the address part on
`'.'` and `parse::<u8>().unwrap()` every component; build
`Ipv4Addr::new(addrs[3], addrs[2], addrs[1], addrs[0])` (panic when there are
fewer than four components) and return its `u32` value, so the octet order is
reversed relative to network byte order. -/
def parseOctets : List (List Char) → Option (List Nat)
  | [] => some []
  | s :: rest =>
    match parseUnsigned 256 s, parseOctets rest with
    | some v, some vs => some (v :: vs)
    | _, _ => none

def get_inet_addr (worker_addr : List Char) : Option Nat :=
  let addr_port := splitOnChar ':' worker_addr
  match addr_port.get? 1 with
  | none => none
  | some _port =>
    let addr := addr_port.headD []
    match parseOctets (splitOnChar '.' addr) with
    | none => none
    | some addrs =>
      match addrs.get? 3, addrs.get? 2, addrs.get? 1, addrs.get? 0 with
      | some a3, some a2, some a1, some a0 =>
        some (a3 * 16777216 + a2 * 65536 + a1 * 256 + a0)
      | _, _, _, _ => none

/-- `get_server_id` (`share.rs` lines 28–31): split on `'-'`, then
`splits[1].parse::<u16>().unwrap()`; `none` models both panics (no second
part, or a failed/overflowing parse). -/
def get_server_id (server_id : List Char) : Option Nat :=
  match (splitOnChar '-' server_id).get? 1 with
  | none => none
  | some s => parseUnsigned 65536 s

/-- `get_fullname` (`share.rs` lines 33–43): when the UTF-8 byte length is
below `FULLNAME_LIMIT`, append that many NUL characters; then
`copy_from_slice` into a `[char; FULLNAME_LIMIT]`, which panics (`none`)
unless the padded string has exactly `FULLNAME_LIMIT` characters. -/
def get_fullname (fullname : List Char) : Option (List Char) :=
  let length := byteLen fullname
  let padded :=
    if length < FULLNAME_LIMIT then
      fullname ++ List.replicate (FULLNAME_LIMIT - length) (Char.ofNat 0)
    else fullname
  if padded.length = FULLNAME_LIMIT then some padded else none

/-- The `Share` record (`share.rs` lines 45–61).  `worker_hash_id`, `blkbits`
and `share_diff` are the reserved always-zero fields. -/
structure Share where
  job_id : Nat
  worker_hash_id : Int
  difficulty : Nat
  ip : Nat
  user_id : Int
  timestamp : Nat
  blkbits : Nat
  result : Int
  height : Int
  share_diff : Nat
  server_id : Nat
  fullname : List Char
deriving Repr, DecidableEq

/-- `worker_id as i32`: two's-complement truncation of a `usize`. -/
def usizeAsI32 (n : Nat) : Int :=
  if n % 2 ^ 32 < 2 ^ 31 then ((n % 2 ^ 32 : Nat) : Int)
  else ((n % 2 ^ 32 : Nat) : Int) - 2 ^ 32

/-- `Share::new` (`share.rs` lines 63–92); `none` models the panics inside
`get_server_id`, `get_inet_addr` and `get_fullname` — the constructor has no
error return of its own. -/
def Share.new (job_id : Nat) (server_id : String) (worker_addr : String)
    (worker_id : Nat) (difficulty : Nat) (fullname : String)
    (result : SubmitResult) (height : Int) (timestamp : Nat) : Option Share :=
  match get_server_id server_id.toList with
  | none => none
  | some sid =>
    match get_inet_addr worker_addr.toList with
    | none => none
    | some ipv =>
      match get_fullname fullname.toList with
      | none => none
      | some fn =>
        some {
          job_id := job_id
          worker_hash_id := 0
          difficulty := difficulty
          ip := ipv
          user_id := usizeAsI32 worker_id
          timestamp := timestamp
          blkbits := 0
          result := result.toI32
          height := height
          share_diff := 0
          server_id := sid
          fullname := fn }

/-! ## Definitions: protocol data (modelled from the spec where
`pool/proto.rs` is not among the provided sources) -/

/-- Modelled from the spec: `WorkerStatus` lives in the missing
`pool/proto.rs`.  Spec §3: "mutable running counters per worker: accepted
count, rejected count, stale count, current difficulty, current height,
numeric id"; `WorkerStatus::new(id_string)` starts the counters at zero. -/
structure WorkerStatus where
  id : String
  accepted : Nat
  rejected : Nat
  stale : Nat
  difficulty : Nat
  height : Nat
deriving Repr, DecidableEq

/-- Modelled from the spec: `WorkerStatus::new` (missing `pool/proto.rs`). -/
def WorkerStatus.new (id : String) : WorkerStatus :=
  { id := id, accepted := 0, rejected := 0, stale := 0, difficulty := 0, height := 0 }

/-- Modelled from the spec: `LoginParams` (missing `pool/proto.rs`), §3: a
`login` string of the form `username.workername` and a `pass`; `server.rs`
additionally fills an `agent` field. -/
structure LoginParams where
  login : String
  pass : String
  agent : String
deriving Repr, DecidableEq

/-- Modelled from the spec: `JobTemplate` (missing `pool/proto.rs`), carrying
the fields `server.rs` reads: height, job id, difficulty. -/
structure JobTemplate where
  height : Nat
  job_id : Nat
  difficulty : Nat
deriving Repr, DecidableEq

/-- Modelled from the spec: `JobTemplate::new` (missing `pool/proto.rs`). -/
def JobTemplate.new : JobTemplate :=
  { height := 0, job_id := 0, difficulty := 0 }

/-- `RpcError` (missing `pool/proto.rs`; shape fixed by spec §6:
`RpcError{code: integer, message: string}` and by every construction site in
`server.rs`). -/
structure RpcError where
  code : Int
  message : String
deriving Repr, DecidableEq

/-! ## Definitions: the `Worker` session (`src/stratum/src/pool/worker.rs`) -/

/-- The `Worker` session state (`worker.rs` lines 95–107), omitting the
socket and protocol handles (transport collaborators). -/
structure Worker where
  id : Nat
  login : Option LoginParams
  error : Bool
  authenticated : Bool
  status : WorkerStatus
  block_status : WorkerStatus
  shares : List SubmitParams
  needs_job : Bool
  addr : String
deriving Repr, DecidableEq

/-- `Worker::new` (`worker.rs` lines 111–125). -/
def Worker.new (id : Nat) (addr : String) : Worker :=
  { id := id
    login := none
    error := false
    authenticated := false
    status := WorkerStatus.new (natDigits id).asString
    block_status := WorkerStatus.new (natDigits id).asString
    shares := []
    needs_job := true
    addr := addr }

/-- `Worker::login()` (`worker.rs` lines 142–147). -/
def Worker.loginName (w : Worker) : String :=
  match w.login with
  | none => "None.__default__"
  | some lp => lp.login

/-- `validate_legal_string` (`worker.rs` lines 32–44): spaces are removed
from both strings, then the check is that the set of remaining characters of
`check` is a subset of those of `legal` (the `HashSet` difference is empty
iff every remaining character occurs in the legal string). -/
def validate_legal_string (check : List Char) (legal : List Char) : Bool :=
  let legal := legal.filter (fun c => c ≠ ' ')
  let check := check.filter (fun c => c ≠ ' ')
  check.all (fun c => legal.contains c)

/-- The username character set (`worker.rs` line 78, verbatim). -/
def legalUsernameChars : List Char :=
  "abcdefghijklmnopqrstuvwxyzABCDEFGHIJKLMNOPQRSTUVWXYZ01234567890_".toList

/-- The workername character set (`worker.rs` line 87, verbatim). -/
def legalWorkernameChars : List Char :=
  "abcdefghijklmnopqrstuvwxyzABCDEFGHIJKLMNOPQRSTUVWXYZ01234567890_.-".toList

/-- `validate_username` (`worker.rs` lines 74–81); the length check is on the
raw UTF-8 byte length, before any space stripping. -/
def validate_username (username : List Char) : Bool :=
  if username.isEmpty || byteLen username > 20 then false
  else validate_legal_string username legalUsernameChars

/-- `validate_workername` (`worker.rs` lines 83–90). -/
def validate_workername (workername : List Char) : Bool :=
  if workername.isEmpty || byteLen workername > 18 then false
  else validate_legal_string workername legalWorkernameChars

/-- `validate_fullname` (`worker.rs` lines 47–72): split the login on `'.'`;
with at least two parts validate parts 0 and 1 (later parts are ignored);
with a single part validate it against the default workername `__default__`
and, on success, store the reconcatenated login.  Returns the success flag
and the (possibly updated) `LoginParams`. -/
def validate_fullname (lp : LoginParams) : Bool × LoginParams :=
  let splits := splitOnChar '.' lp.login.toList
  if 2 ≤ splits.length then
    let username := splits.headD []
    let workername := (splits.get? 1).getD []
    if validate_username username && validate_workername workername then
      (true, lp)
    else (false, lp)
  else
    let username := splits.headD []
    let workername := "__default__".toList
    if validate_username username && validate_workername workername then
      (true, { lp with login := (username ++ '.' :: workername).asString })
    else (false, lp)

/-- Outcome of one `Worker::process_messages` call. -/
inductive WorkerOutcome where
  | retOk : WorkerOutcome
  | retErr : String → WorkerOutcome
  | panicked : WorkerOutcome
deriving Repr, DecidableEq

/-- The `"submit"` arm of `Worker::process_messages` (`worker.rs` lines
277–285) followed by the function's final `return Ok(())`: the argument is
the collaborator-supplied outcome of
`serde_json::from_value::<SubmitParams>(req.params.unwrap())` — `none` is a
request without params (the `unwrap` panics); a parse error (`Except.error`)
is silently dropped; a parsed record is pushed onto the pending-share
queue.  Nothing else of the session is touched. -/
def Worker.processSubmit (w : Worker) (params : Option (Except String SubmitParams)) :
    Worker × WorkerOutcome :=
  match params with
  | none => (w, .panicked)
  | some (.ok share) => ({ w with shares := w.shares ++ [share] }, .retOk)
  | some (.error _) => (w, .retOk)

/-! ## Definitions: the upstream `Server` session (`src/stratum/src/pool/server.rs`) -/

/-- A parsed JSON value in the positions `process_message` inspects: a
`JobTemplate`-shaped value, a `WorkerStatus`-shaped value, an
`RpcError`-shaped value, or some other value (e.g. the `"ok"` string of a
submit result).  `serde_json::from_value::<T>(..).unwrap()` on a value of the
wrong shape is a panic. -/
inductive Val where
  | jobV : JobTemplate → Val
  | statusV : WorkerStatus → Val
  | errV : RpcError → Val
  | strV : String → Val
deriving Repr, DecidableEq

/-- One parsed JSON-RPC frame from the upstream socket: the fields of
`RpcRequest`/`RpcResponse` (missing `pool/proto.rs`; shapes fixed by spec §6:
`Request{method, optional params, id}`,
`Response{method, optional result, optional error, id}`). -/
structure UpFrame where
  id : String
  method : String
  params : Option Val
  result : Option Val
  error : Option Val
deriving Repr, DecidableEq

/-- Result of `protocol.get_message` on the upstream stream: a transport
error, no complete message ready, or one message. -/
inductive GetMsg where
  | ioErr : GetMsg
  | empty : GetMsg
  | msg : UpFrame → GetMsg
deriving Repr, DecidableEq

/-- Return value of `Server::process_message` (`Result<String, RpcError>`),
plus `panicked` for the `unwrap`/indexing panics on its path. -/
inductive Outcome where
  | ok : String → Outcome
  | err : RpcError → Outcome
  | panicked : Outcome
deriving Repr, DecidableEq

/-- The `Server` state (`server.rs` lines 40–49), omitting the socket (only
its presence matters: `hasStream` is `stream.is_some()`), the protocol and
kafka handles and the static config. -/
structure ServerState where
  id : String
  hasStream : Bool
  error : Bool
  job : JobTemplate
  status : WorkerStatus
deriving Repr, DecidableEq

/-- `Server::new` (`server.rs` lines 61–72): the pool identifier is
`format!("Pool-{}", cfg.server.id)`. -/
def ServerState.new (cfgId : String) : ServerState :=
  { id := "Pool-" ++ cfgId
    hasStream := false
    error := false
    job := JobTemplate.new
    status := WorkerStatus.new "Pool" }

/-- Update the element at an index, if any (a `workers_l[i].field += 1`
mutation through the registry lock). -/
def updateAt {α : Type} : List α → Nat → (α → α) → List α
  | [], _, _ => []
  | x :: xs, 0, f => f x :: xs
  | x :: xs, n + 1, f => x :: updateAt xs n f

/-- `workers_l.iter().position(pred)`. -/
def position {α : Type} (p : α → Bool) : List α → Option Nat
  | [] => none
  | x :: xs => if p x then some 0 else (position p xs).map (· + 1)

/-- A placeholder used only for `List.getD` at indices proven in bounds. -/
def dummyWorker : Worker := Worker.new 0 ""

/-- The observable effects of one `Server::process_message` call: the new
server state, the new worker registry, the `kafka.send_data(edge_bits,
share)` calls, the `send_ok(method)` calls (by registry index), and the
return value. -/
structure ProcEffect where
  state : ServerState
  workers : List Worker
  published : List (Nat × Share)
  sentOks : List (Nat × String)
  outcome : Outcome
deriving Repr, DecidableEq

/-- Accepted increment on the worker at registry index `i`. -/
def bumpAccepted (workers : List Worker) (i : Nat) : List Worker :=
  updateAt workers i fun wk =>
    { wk with status := { wk.status with accepted := wk.status.accepted + 1 } }

/-- Stale increment on the worker at registry index `i`. -/
def bumpStale (workers : List Worker) (i : Nat) : List Worker :=
  updateAt workers i fun wk =>
    { wk with status := { wk.status with stale := wk.status.stale + 1 } }

/-- Rejected increment on the worker at registry index `i`. -/
def bumpRejected (workers : List Worker) (i : Nat) : List Worker :=
  updateAt workers i fun wk =>
    { wk with status := { wk.status with rejected := wk.status.rejected + 1 } }

/-- The tail of the `"submit"` response arm (`server.rs` lines 470–484): after
the counter update, borrow `workers_l[w_id]`, build the `Share` from the
values recovered from the correlation id (panic propagates from `Share::new`)
and hand it to `kafka.send_data(edge_bits, share)`. -/
def finishSubmit (st : ServerState) (workers' : List Worker) (now : Nat)
    (method : String) (jobId : Nat) (height : Int) (edgeBits : Nat)
    (w_id : Nat) (result : SubmitResult) (oks : List (Nat × String)) : ProcEffect :=
  let worker := workers'.getD w_id dummyWorker
  match Share.new jobId st.id worker.addr w_id worker.status.difficulty
      worker.loginName result height now with
  | none =>
    { state := st, workers := workers', published := [], sentOks := oks,
      outcome := .panicked }
  | some sh =>
    { state := st, workers := workers', published := [(edgeBits, sh)],
      sentOks := oks, outcome := .ok method }

/-- The `"submit"` response arm of `Server::process_message` (`server.rs`
lines 348–485): decode the correlation id (`decodeSubmitId`); look up the
worker by decoded id (`position`), absence sets the session error flag and
returns `-32600 Null Worker ID`; a present `result` bumps `accepted`, sends
an ok acknowledgement and publishes an `Accept` share; an absent `result`
parses the embedded `RpcError` (panic when absent or ill-shaped), bumps
`stale` on code `-32503` and `rejected` otherwise, and publishes a `Reject`
share. -/
def processSubmitResponse (st : ServerState) (workers : List Worker) (now : Nat)
    (f : UpFrame) : ProcEffect :=
  match decodeSubmitId f.id with
  | .panic =>
    { state := st, workers := workers, published := [], sentOks := [],
      outcome := .panicked }
  | .err c m =>
    { state := st, workers := workers, published := [], sentOks := [],
      outcome := .err ⟨c, m⟩ }
  | .ok wid height jobId _nonce edgeBits =>
    match position (fun wk => wk.id == wid) workers with
    | none =>
      { state := { st with error := true }, workers := workers, published := [],
        sentOks := [], outcome := .err ⟨-32600, "Null Worker ID"⟩ }
    | some w_id =>
      match f.result with
      | some _ =>
        finishSubmit st (bumpAccepted workers w_id) now f.method jobId height
          edgeBits w_id .Accept [(w_id, f.method)]
      | none =>
        match f.error with
        | some (.errV e) =>
          if e.code = -32503 then
            finishSubmit st (bumpStale workers w_id) now f.method jobId height
              edgeBits w_id .Reject []
          else
            finishSubmit st (bumpRejected workers w_id) now f.method jobId height
              edgeBits w_id .Reject []
        | _ =>
          { state := st, workers := workers, published := [], sentOks := [],
            outcome := .panicked }

/-- `Server::process_message` (`server.rs` lines 228–533).  `now` is the
`Utc::now().timestamp()` collaborator value.  With no stream: `-32500`.  A
transport error sets the error flag and returns `-32600`.  No message is the
neutral `Ok("None")`.  A frame whose id is the literal `"Stratum"` is a
request: `"job"` replaces the job template (panic when the params are absent
or not job-shaped), anything else is `-32601 Method not found`.  Any other id
is a response, dispatched by method name; unknown response methods are
`-32600 Invalid Response`. -/
def processMessage (st : ServerState) (workers : List Worker) (now : Nat)
    (input : GetMsg) : ProcEffect :=
  if st.hasStream = false then
    { state := st, workers := workers, published := [], sentOks := [],
      outcome := .err ⟨-32500, "No upstream connection"⟩ }
  else
    match input with
    | .ioErr =>
      { state := { st with error := true }, workers := workers, published := [],
        sentOks := [], outcome := .err ⟨-32600, "Invalid Response"⟩ }
    | .empty =>
      { state := st, workers := workers, published := [], sentOks := [],
        outcome := .ok "None" }
    | .msg f =>
      if f.id = "Stratum" then
        if f.method = "job" then
          match f.params with
          | some (.jobV j) =>
            { state := { st with job := j }, workers := workers, published := [],
              sentOks := [], outcome := .ok f.method }
          | _ =>
            { state := st, workers := workers, published := [], sentOks := [],
              outcome := .panicked }
        else
          { state := st, workers := workers, published := [], sentOks := [],
            outcome := .err ⟨-32601, "Method not found: " ++ f.method⟩ }
      else
        if f.method = "getjobtemplate" then
          match f.result with
          | some (.jobV j) =>
            { state := { st with job := j }, workers := workers, published := [],
              sentOks := [], outcome := .ok f.method }
          | some _ =>
            { state := st, workers := workers, published := [], sentOks := [],
              outcome := .panicked }
          | none =>
            match f.error with
            | some (.errV e) =>
              { state := { st with error := true }, workers := workers,
                published := [], sentOks := [], outcome := .err e }
            | _ =>
              { state := { st with error := true }, workers := workers,
                published := [], sentOks := [], outcome := .panicked }
        else if f.method = "login" then
          match f.result with
          | some _ =>
            { state := st, workers := workers, published := [], sentOks := [],
              outcome := .ok f.method }
          | none =>
            match f.error with
            | some (.errV e) =>
              { state := { st with error := true }, workers := workers,
                published := [], sentOks := [], outcome := .err e }
            | _ =>
              { state := { st with error := true }, workers := workers,
                published := [], sentOks := [], outcome := .panicked }
        else if f.method = "status" then
          match f.result with
          | some (.statusV ws) =>
            { state := { st with status := ws }, workers := workers,
              published := [], sentOks := [], outcome := .ok f.method }
          | _ =>
            { state := st, workers := workers, published := [], sentOks := [],
              outcome := .panicked }
        else if f.method = "submit" then
          processSubmitResponse st workers now f
        else if f.method = "keepalive" then
          { state := st, workers := workers, published := [], sentOks := [],
            outcome := .ok f.method }
        else
          { state := st, workers := workers, published := [], sentOks := [],
            outcome := .err ⟨-32600, "Invalid Response"⟩ }

/-- Two worker sessions agreeing on every field except (possibly) the
lifetime-cumulative `status`: same id, login, error flag, authenticated
flag, per-block `block_status`, pending-share queue, `needs_job` flag and
remote address. -/
def sameExceptStatus (a b : Worker) : Prop :=
  a.id = b.id ∧ a.login = b.login ∧ a.error = b.error
    ∧ a.authenticated = b.authenticated ∧ a.block_status = b.block_status
    ∧ a.shares = b.shares ∧ a.needs_job = b.needs_job ∧ a.addr = b.addr

/-! ## Theorems: string helpers -/

theorem byteLen_nil : byteLen [] = 0 := rfl

theorem byteLen_cons (c : Char) (cs : List Char) :
    byteLen (c :: cs) = utf8Width c + byteLen cs := rfl

theorem byteLen_append (xs ys : List Char) :
    byteLen (xs ++ ys) = byteLen xs + byteLen ys := by
  induction xs with
  | nil => simp [byteLen]
  | cons c cs ih => simp [byteLen_cons, ih, Nat.add_assoc]

theorem one_le_utf8Width (c : Char) : 1 ≤ utf8Width c := by
  unfold utf8Width; split <;> try omega
  split <;> try omega
  split <;> omega

/-- A string has at least as many UTF-8 bytes as characters. -/
theorem length_le_byteLen (cs : List Char) : cs.length ≤ byteLen cs := by
  induction cs with
  | nil => simp [byteLen]
  | cons c cs ih =>
    have := one_le_utf8Width c
    simp only [List.length_cons, byteLen_cons]
    omega

/-- ASCII strings have as many bytes as characters. -/
theorem byteLen_of_ascii (cs : List Char) (h : ∀ c ∈ cs, c.toNat < 128) :
    byteLen cs = cs.length := by
  induction cs with
  | nil => simp [byteLen]
  | cons c cs ih =>
    have hc : c.toNat < 128 := h c (by simp)
    have : utf8Width c = 1 := by unfold utf8Width; rw [if_pos]; omega
    simp only [byteLen_cons, this, List.length_cons]
    rw [ih (fun x hx => h x (by simp [hx]))]
    omega

theorem splitOnChar_ne_nil (sep : Char) (cs : List Char) :
    splitOnChar sep cs ≠ [] := by
  cases cs with
  | nil => simp [splitOnChar]
  | cons c rest =>
    simp only [splitOnChar]
    split
    · simp
    · split <;> simp

/-- A separator-free string is a single part. -/
theorem splitOnChar_of_not_mem (sep : Char) (cs : List Char) (h : sep ∉ cs) :
    splitOnChar sep cs = [cs] := by
  induction cs with
  | nil => rfl
  | cons c rest ih =>
    have hc : c ≠ sep := fun hcs => h (by simp [hcs])
    have hrest : sep ∉ rest := fun hm => h (by simp [hm])
    simp only [splitOnChar, if_neg hc, ih hrest]

/-- Splitting past the first separator. -/
theorem splitOnChar_append (sep : Char) (xs ys : List Char) (h : sep ∉ xs) :
    splitOnChar sep (xs ++ sep :: ys) = xs :: splitOnChar sep ys := by
  induction xs with
  | nil => simp [splitOnChar]
  | cons c rest ih =>
    have hc : c ≠ sep := fun hcs => h (by simp [hcs])
    have hrest : sep ∉ rest := fun hm => h (by simp [hm])
    simp only [List.cons_append, splitOnChar, if_neg hc]
    rw [show rest.append (sep :: ys) = rest ++ sep :: ys from rfl, ih hrest]

/-! ## Theorems: decimal rendering and parsing -/

theorem natDigitsAux_irrel : ∀ f1 f2 n : Nat, n < f1 → n < f2 →
    natDigitsAux f1 n = natDigitsAux f2 n := by
  intro f1
  induction f1 with
  | zero => intro f2 n h1 _; omega
  | succ f ih =>
    intro f2 n h1 h2
    cases f2 with
    | zero => omega
    | succ g =>
      simp only [natDigitsAux]
      split
      · rfl
      · rename_i hn
        rw [ih g (n / 10) (by omega) (by omega)]

/-- The defining recursion of `natDigits`. -/
theorem natDigits_eq (n : Nat) :
    natDigits n = if n < 10 then [digitChar n]
      else natDigits (n / 10) ++ [digitChar (n % 10)] := by
  show natDigitsAux (n + 1) n = _
  simp only [natDigitsAux]
  split
  · rfl
  · rename_i hn
    rw [natDigitsAux_irrel n (n / 10 + 1) (n / 10) (by omega) (by omega)]
    rfl

theorem digitChar_isDigit (d : Nat) (h : d < 10) : isDigitC (digitChar d) = true := by
  interval_cases d <;> decide

theorem digitChar_ascii (d : Nat) (h : d < 10) : (digitChar d).toNat < 128 := by
  interval_cases d <;> decide

theorem digitChar_ne (d : Nat) (h : d < 10) (c : Char)
    (hc : c = '+' ∨ c = '-' ∨ c = '.' ∨ c = ':') : digitChar d ≠ c := by
  interval_cases d <;> rcases hc with h | h | h | h <;> subst h <;> decide

theorem digitVal_digitChar (d : Nat) (h : d < 10) : digitVal (digitChar d) = d := by
  interval_cases d <;> decide

theorem natDigits_ne_nil (n : Nat) : natDigits n ≠ [] := by
  rw [natDigits_eq]
  split <;> simp

theorem natDigits_all_digits (n : Nat) : (natDigits n).all isDigitC = true := by
  induction n using Nat.strong_induction_on with
  | _ n ih =>
    rw [natDigits_eq]
    split
    · simp [digitChar_isDigit n ‹n < 10›]
    · rename_i h
      have hd := ih (n / 10) (Nat.div_lt_self (by omega) (by omega))
      simp only [List.all_append, hd, List.all_cons, List.all_nil,
        digitChar_isDigit (n % 10) (Nat.mod_lt n (by omega)), Bool.and_self]

theorem natDigits_ascii (n : Nat) : ∀ c ∈ natDigits n, c.toNat < 128 := by
  induction n using Nat.strong_induction_on with
  | _ n ih =>
    rw [natDigits_eq]
    split
    · intro c hc
      simp only [List.mem_singleton] at hc
      subst hc
      exact digitChar_ascii n ‹n < 10›
    · intro c hc
      simp only [List.mem_append, List.mem_singleton] at hc
      rcases hc with hc | hc
      · exact ih (n / 10) (Nat.div_lt_self (by omega) (by omega)) c hc
      · subst hc
        exact digitChar_ascii (n % 10) (Nat.mod_lt n (by omega))

theorem natDigits_not_mem (n : Nat) (c : Char)
    (hc : c = '+' ∨ c = '-' ∨ c = '.' ∨ c = ':') : c ∉ natDigits n := by
  induction n using Nat.strong_induction_on with
  | _ n ih =>
    rw [natDigits_eq]
    split
    · simp only [List.mem_singleton]
      exact fun h => digitChar_ne n ‹n < 10› c hc h.symm
    · simp only [List.mem_append, List.mem_singleton]
      push_neg
      refine ⟨ih (n / 10) (Nat.div_lt_self (by omega) (by omega)), ?_⟩
      exact fun h => digitChar_ne (n % 10) (Nat.mod_lt n (by omega)) c hc h.symm

theorem digitsVal_append_one (cs : List Char) (c : Char) :
    digitsVal (cs ++ [c]) = digitsVal cs * 10 + digitVal c := by
  simp [digitsVal, List.foldl_append]

theorem digitsVal_natDigits (n : Nat) : digitsVal (natDigits n) = n := by
  induction n using Nat.strong_induction_on with
  | _ n ih =>
    rw [natDigits_eq]
    split
    · rename_i h
      simp [digitsVal, digitVal_digitChar n h]
    · rename_i h
      rw [digitsVal_append_one, ih (n / 10) (Nat.div_lt_self (by omega) (by omega)),
        digitVal_digitChar (n % 10) (Nat.mod_lt n (by omega))]
      omega

theorem stripPlus_natDigits (n : Nat) : stripPlus (natDigits n) = natDigits n := by
  unfold stripPlus
  split
  · rename_i heq
    exfalso
    exact natDigits_not_mem n '+' (Or.inl rfl) (heq ▸ List.mem_cons_self _ _)
  · rfl

/-- Rendering then parsing an in-range natural recovers it. -/
theorem parseUnsigned_natDigits (bound n : Nat) (h : n < bound) :
    parseUnsigned bound (natDigits n) = some n := by
  unfold parseUnsigned
  rw [stripPlus_natDigits]
  rw [if_pos]
  · rw [digitsVal_natDigits]
  · simp [natDigits_ne_nil n, natDigits_all_digits n, digitsVal_natDigits n, h]

theorem parseI32_natDigits (n : Nat) (h : n < 2 ^ 31) :
    parseI32 (natDigits n) = some ((n : Int)) := by
  unfold parseI32
  split
  · rename_i heq
    exfalso
    exact natDigits_not_mem n '-' (Or.inr (Or.inl rfl)) (heq ▸ List.mem_cons_self _ _)
  · rw [stripPlus_natDigits]
    rw [if_pos]
    · rw [digitsVal_natDigits]
    · simp only [digitsVal_natDigits]
      simp [natDigits_ne_nil n, natDigits_all_digits n]
      omega

/-! ## Theorems: base64 -/

theorem sextetOf_sextetChar (n : Nat) (h : n < 64) : sextetOf (sextetChar n) = some n := by
  interval_cases n <;> decide

theorem sextetChar_ne_eq (n : Nat) (h : n < 64) : sextetChar n ≠ '=' := by
  interval_cases n <;> decide

/-- Base64 round trip: decoding an encoding recovers the bytes. -/
theorem b64_roundtrip : ∀ bs : List Nat, (∀ b ∈ bs, b < 256) →
    b64DecodeChars (b64EncodeBytes bs) = some bs
  | [], _ => rfl
  | [b1], h => by
    have hb1 : b1 < 256 := h b1 (by simp)
    show b64DecodeChars [sextetChar (b1 / 4), sextetChar (b1 % 4 * 16), '=', '='] = some [b1]
    rw [b64DecodeChars, sextetOf_sextetChar (b1 / 4) (by omega),
      sextetOf_sextetChar (b1 % 4 * 16) (by omega)]
    simp only [Option.some_bind]
    rw [if_pos trivial, if_pos]
    · simp only [Option.some.injEq, List.cons.injEq, and_true]
      omega
    · have h16 : b1 % 4 * 16 % 16 = 0 := by omega
      simp [h16]
  | [b1, b2], h => by
    have hb1 : b1 < 256 := h b1 (by simp)
    have hb2 : b2 < 256 := h b2 (by simp)
    show b64DecodeChars [sextetChar (b1 / 4), sextetChar (b1 % 4 * 16 + b2 / 16),
      sextetChar (b2 % 16 * 4), '='] = some [b1, b2]
    rw [b64DecodeChars, sextetOf_sextetChar (b1 / 4) (by omega),
      sextetOf_sextetChar (b1 % 4 * 16 + b2 / 16) (by omega)]
    simp only [Option.some_bind]
    rw [if_neg (sextetChar_ne_eq (b2 % 16 * 4) (by omega)),
      sextetOf_sextetChar (b2 % 16 * 4) (by omega)]
    simp only [Option.some_bind]
    rw [if_pos trivial, if_pos]
    · simp only [Option.some.injEq, List.cons.injEq, and_true]
      omega
    · have h4 : b2 % 16 * 4 % 4 = 0 := by omega
      simp [h4]
  | [b1, b2, b3], h => by
    have hb1 : b1 < 256 := h b1 (by simp)
    have hb2 : b2 < 256 := h b2 (by simp)
    have hb3 : b3 < 256 := h b3 (by simp)
    show b64DecodeChars [sextetChar (b1 / 4), sextetChar (b1 % 4 * 16 + b2 / 16),
      sextetChar (b2 % 16 * 4 + b3 / 64), sextetChar (b3 % 64)] = some [b1, b2, b3]
    rw [b64DecodeChars, sextetOf_sextetChar (b1 / 4) (by omega),
      sextetOf_sextetChar (b1 % 4 * 16 + b2 / 16) (by omega)]
    simp only [Option.some_bind]
    rw [if_neg (sextetChar_ne_eq (b2 % 16 * 4 + b3 / 64) (by omega)),
      sextetOf_sextetChar (b2 % 16 * 4 + b3 / 64) (by omega)]
    simp only [Option.some_bind]
    rw [if_neg (sextetChar_ne_eq (b3 % 64) (by omega)),
      sextetOf_sextetChar (b3 % 64) (by omega)]
    simp only [Option.some_bind]
    rw [show b64DecodeChars [] = some [] from rfl]
    simp only [Option.map_some', Option.some.injEq, List.cons.injEq, and_true]
    omega
  | b1 :: b2 :: b3 :: b4 :: rest, h => by
    have hb1 : b1 < 256 := h b1 (by simp)
    have hb2 : b2 < 256 := h b2 (by simp)
    have hb3 : b3 < 256 := h b3 (by simp)
    have ih := b64_roundtrip (b4 :: rest) (fun b hb => h b (by simp at hb ⊢; tauto))
    show b64DecodeChars (sextetChar (b1 / 4) :: sextetChar (b1 % 4 * 16 + b2 / 16) ::
      sextetChar (b2 % 16 * 4 + b3 / 64) :: sextetChar (b3 % 64) ::
      b64EncodeBytes (b4 :: rest)) = some (b1 :: b2 :: b3 :: b4 :: rest)
    rw [b64DecodeChars, sextetOf_sextetChar (b1 / 4) (by omega),
      sextetOf_sextetChar (b1 % 4 * 16 + b2 / 16) (by omega)]
    simp only [Option.some_bind]
    rw [if_neg (sextetChar_ne_eq (b2 % 16 * 4 + b3 / 64) (by omega)),
      sextetOf_sextetChar (b2 % 16 * 4 + b3 / 64) (by omega)]
    simp only [Option.some_bind]
    rw [if_neg (sextetChar_ne_eq (b3 % 64) (by omega)),
      sextetOf_sextetChar (b3 % 64) (by omega)]
    simp only [Option.some_bind]
    rw [ih]
    simp only [Option.map_some', Option.some.injEq, List.cons.injEq, and_true]
    omega

/-! ## Theorems: UTF-8 -/

/-- A successful step never lengthens the remaining stream. -/
theorem utf8Step_length (b : Nat) (rest : List Nat) (c : Char) (rest' : List Nat)
    (h : utf8Step b rest = some (c, rest')) : rest'.length ≤ rest.length := by
  unfold utf8Step at h
  repeat' split at h
  all_goals first
    | exact Option.noConfusion h
    | (injection h with h1
       injection h1 with hc hr
       subst hr
       try simp only [List.length_cons]
       omega)

/-- The fuel argument of `utf8DecodeAux` is irrelevant at or above the list
length, so `utf8Decode`'s choice of fuel is canonical. -/
theorem utf8DecodeAux_irrel : ∀ f1 f2 : Nat, ∀ bs : List Nat,
    bs.length ≤ f1 → bs.length ≤ f2 → utf8DecodeAux f1 bs = utf8DecodeAux f2 bs := by
  intro f1
  induction f1 with
  | zero =>
    intro f2 bs h1 _
    cases bs with
    | nil => cases f2 <;> rfl
    | cons b rest => simp at h1
  | succ f ih =>
    intro f2 bs h1 h2
    cases bs with
    | nil => cases f2 <;> rfl
    | cons b rest =>
      cases f2 with
      | zero => simp at h2
      | succ g =>
        simp only [utf8DecodeAux]
        cases hstep : utf8Step b rest with
        | none => rfl
        | some p =>
          obtain ⟨c, rest'⟩ := p
          have hlen := utf8Step_length b rest c rest' hstep
          simp only [List.length_cons] at h1 h2
          show (utf8DecodeAux f rest').map (c :: ·) = (utf8DecodeAux g rest').map (c :: ·)
          rw [ih g rest' (by omega) (by omega)]

theorem utf8Step_ascii (b : Nat) (rest : List Nat) (h : b < 0x80) :
    utf8Step b rest = some (Char.ofNat b, rest) := by
  unfold utf8Step
  rw [if_pos h]

theorem utf8DecodeAux_ascii (cs : List Char) (h : ∀ c ∈ cs, c.toNat < 128) :
    utf8DecodeAux cs.length (cs.map Char.toNat) = some cs := by
  induction cs with
  | nil => rfl
  | cons c rest ih =>
    have hc : c.toNat < 128 := h c (by simp)
    simp only [List.map_cons, List.length_cons, utf8DecodeAux,
      utf8Step_ascii c.toNat (rest.map Char.toNat) hc]
    rw [ih (fun x hx => h x (by simp [hx]))]
    simp [Char.ofNat_toNat]

/-- Decoding the byte rendering of an ASCII string recovers it. -/
theorem utf8Decode_ascii (cs : List Char) (h : ∀ c ∈ cs, c.toNat < 128) :
    utf8Decode (cs.map Char.toNat) = some cs := by
  show utf8DecodeAux (cs.map Char.toNat).length (cs.map Char.toNat) = some cs
  rw [show (cs.map Char.toNat).length = cs.length by simp]
  exact utf8DecodeAux_ascii cs h

/-! ## Theorems: correlation-id codec -/

theorem ascii_plus_cons (xs : List Char) (h : ∀ c ∈ xs, c.toNat < 128) :
    ∀ c ∈ '+' :: xs, c.toNat < 128 := by
  intro c hc
  rcases List.mem_cons.mp hc with rfl | hm
  · decide
  · exact h c hm

theorem ascii_append (xs ys : List Char) (hx : ∀ c ∈ xs, c.toNat < 128)
    (hy : ∀ c ∈ ys, c.toNat < 128) : ∀ c ∈ xs ++ ys, c.toNat < 128 := by
  intro c hc
  rcases List.mem_append.mp hc with h | h
  · exact hx c h
  · exact hy c h

theorem submitIdPlain_ascii (w : Nat) (s : SubmitParams) :
    ∀ c ∈ submitIdPlain w s, c.toNat < 128 := by
  unfold submitIdPlain SubmitParams.as_string
  exact ascii_append _ _ (natDigits_ascii w) (ascii_plus_cons _
    (ascii_append _ _ (natDigits_ascii s.height) (ascii_plus_cons _
      (ascii_append _ _ (natDigits_ascii s.job_id) (ascii_plus_cons _
        (ascii_append _ _ (natDigits_ascii s.nonce) (ascii_plus_cons _
          (natDigits_ascii s.edge_bits))))))))

/-- Splitting the correlation-id plaintext recovers the five fields. -/
theorem splitOnChar_submitIdPlain (w : Nat) (s : SubmitParams) :
    splitOnChar '+' (submitIdPlain w s) =
      [natDigits w, natDigits s.height, natDigits s.job_id,
        natDigits s.nonce, natDigits s.edge_bits] := by
  unfold submitIdPlain SubmitParams.as_string
  rw [splitOnChar_append '+' _ _ (natDigits_not_mem w '+' (Or.inl rfl)),
    splitOnChar_append '+' _ _ (natDigits_not_mem s.height '+' (Or.inl rfl)),
    splitOnChar_append '+' _ _ (natDigits_not_mem s.job_id '+' (Or.inl rfl)),
    splitOnChar_append '+' _ _ (natDigits_not_mem s.nonce '+' (Or.inl rfl)),
    splitOnChar_of_not_mem '+' _ (natDigits_not_mem s.edge_bits '+' (Or.inl rfl))]

theorem orPanic_some {α : Type} (a : α) (k : α → IdDecode) :
    orPanic (some a) k = k a := rfl

theorem orPanic_none {α : Type} (k : α → IdDecode) :
    orPanic (none : Option α) k = .panic := rfl

theorem orErr_some {α : Type} (a : α) (e : IdDecode) (k : α → IdDecode) :
    orErr (some a) e k = k a := rfl

theorem orErr_none {α : Type} (e : IdDecode) (k : α → IdDecode) :
    orErr (none : Option α) e k = e := rfl

/-- Encode-then-decode recovers every well-formed, in-range 5-tuple. -/
theorem decodeSubmitId_encodeSubmitId (w : Nat) (s : SubmitParams)
    (hw : w < 2 ^ 64) (hh : s.height < 2 ^ 31) (hj : s.job_id < 2 ^ 64)
    (hn : s.nonce < 2 ^ 64) (he : s.edge_bits < 2 ^ 32) :
    decodeSubmitId (encodeSubmitId w s) =
      .ok w ((s.height : Int)) s.job_id s.nonce s.edge_bits := by
  unfold decodeSubmitId
  rw [show (encodeSubmitId w s).toList
      = b64EncodeBytes ((submitIdPlain w s).map Char.toNat) from rfl]
  rw [b64_roundtrip ((submitIdPlain w s).map Char.toNat)
    (by
      intro b hb
      simp only [List.mem_map] at hb
      obtain ⟨c, hc, rfl⟩ := hb
      exact Nat.lt_trans (submitIdPlain_ascii w s c hc) (by omega))]
  rw [orPanic_some]
  rw [utf8Decode_ascii _ (submitIdPlain_ascii w s), orErr_some]
  simp only [splitOnChar_submitIdPlain]
  rw [show ([natDigits w, natDigits s.height, natDigits s.job_id, natDigits s.nonce,
      natDigits s.edge_bits].headD []) = natDigits w from rfl]
  rw [parseUnsigned_natDigits (2 ^ 64) w hw, orErr_some]
  simp only [List.get?]
  rw [orPanic_some, parseI32_natDigits s.height hh, orPanic_some, orPanic_some,
    parseUnsigned_natDigits (2 ^ 64) s.job_id hj, orPanic_some, orPanic_some,
    parseUnsigned_natDigits (2 ^ 64) s.nonce hn, orPanic_some, orPanic_some,
    parseUnsigned_natDigits (2 ^ 32) s.edge_bits he, orPanic_some]

/-! ## Theorems: registry helpers -/

theorem position_eq_none {α : Type} (p : α → Bool) (l : List α)
    (h : ∀ x ∈ l, p x = false) : position p l = none := by
  induction l with
  | nil => rfl
  | cons x xs ih =>
    have hx := h x (by simp)
    have hxs := ih (fun y hy => h y (by simp [hy]))
    simp [position, hx, hxs]

theorem position_lt_length {α : Type} (p : α → Bool) :
    ∀ (l : List α) (i : Nat), position p l = some i → i < l.length := by
  intro l
  induction l with
  | nil => intro i h; exact Option.noConfusion h
  | cons x xs ih =>
    intro i h
    simp only [position] at h
    split at h
    · injection h with h
      subst h
      simp
    · cases hxs : position p xs with
      | none => rw [hxs] at h; exact Option.noConfusion h
      | some j =>
        rw [hxs] at h
        injection h with h
        subst h
        have := ih j hxs
        simp only [List.length_cons]
        omega

theorem updateAt_length {α : Type} :
    ∀ (l : List α) (i : Nat) (f : α → α), (updateAt l i f).length = l.length := by
  intro l
  induction l with
  | nil => intro i f; rfl
  | cons x xs ih =>
    intro i f
    cases i with
    | zero => rfl
    | succ n => simp only [updateAt, List.length_cons, ih]

theorem updateAt_getD_eq {α : Type} :
    ∀ (l : List α) (i : Nat) (f : α → α) (d : α), i < l.length →
      (updateAt l i f).getD i d = f (l.getD i d) := by
  intro l
  induction l with
  | nil => intro i f d h; simp at h
  | cons x xs ih =>
    intro i f d h
    cases i with
    | zero => rfl
    | succ n =>
      simp only [updateAt, List.getD_cons_succ]
      exact ih n f d (by simp at h; omega)

theorem updateAt_getD_ne {α : Type} :
    ∀ (l : List α) (i k : Nat) (f : α → α) (d : α), i ≠ k →
      (updateAt l i f).getD k d = l.getD k d := by
  intro l
  induction l with
  | nil => intro i k f d h; rfl
  | cons x xs ih =>
    intro i k f d h
    cases i with
    | zero =>
      cases k with
      | zero => exact absurd rfl h
      | succ m => rfl
    | succ n =>
      cases k with
      | zero => rfl
      | succ m =>
        simp only [updateAt, List.getD_cons_succ]
        exact ih n m f d (fun he => h (by rw [he]))

theorem finishSubmit_workers (st : ServerState) (ws : List Worker) (now : Nat)
    (method : String) (jobId : Nat) (height : Int) (edgeBits : Nat) (w_id : Nat)
    (result : SubmitResult) (oks : List (Nat × String)) :
    (finishSubmit st ws now method jobId height edgeBits w_id result oks).workers = ws := by
  show (match Share.new jobId st.id (ws.getD w_id dummyWorker).addr w_id
      (ws.getD w_id dummyWorker).status.difficulty (ws.getD w_id dummyWorker).loginName
      result height now with
    | none =>
      ({ state := st, workers := ws, published := [], sentOks := oks,
         outcome := Outcome.panicked } : ProcEffect)
    | some sh =>
      { state := st, workers := ws, published := [(edgeBits, sh)], sentOks := oks,
        outcome := Outcome.ok method }).workers = ws
  split <;> rfl

/-! ## Claim C1: correlation-id decode never panics (corrected) -/

/-- C1, counterexample: the correlation id `"!"` is not valid base64, and the
submit-response decode path panics on it (the source `unwrap`s the failed
`base64::decode`) instead of returning a clean error value as the claim
requires for every malformed id. -/
theorem C1_counterexample :
    base64DecodeStr "!" = none ∧ decodeSubmitId "!" = .panic :=
  ⟨rfl, rfl⟩

/-- C1, amended: encode-then-decode recovers every well-formed 5-tuple with
the fields in their numeric ranges; but decode returns a clean error value
only for an id whose base64 payload is not valid UTF-8 or whose first
'+'-separated field does not parse as a `usize` — an id that is not valid
base64 panics, and so does an id with a single '+'-separated field (no
height field to index). -/
theorem C1_decode_behavior :
    (∀ (w : Nat) (s : SubmitParams), w < 2 ^ 64 → s.height < 2 ^ 31 →
      s.job_id < 2 ^ 64 → s.nonce < 2 ^ 64 → s.edge_bits < 2 ^ 32 →
      decodeSubmitId (encodeSubmitId w s) =
        .ok w ((s.height : Int)) s.job_id s.nonce s.edge_bits)
    ∧ (∀ id : String, b64DecodeChars id.toList = none → decodeSubmitId id = .panic)
    ∧ (∀ (id : String) (bytes : List Nat), b64DecodeChars id.toList = some bytes →
        utf8Decode bytes = none → decodeSubmitId id = .err (-1) "Invalid Worker ID")
    ∧ (∀ (id : String) (bytes : List Nat) (o : List Char),
        b64DecodeChars id.toList = some bytes → utf8Decode bytes = some o →
        parseUnsigned (2 ^ 64) ((splitOnChar '+' o).headD []) = none →
        decodeSubmitId id = .err (-1) "Invalid Worker ID")
    ∧ (∀ (id : String) (bytes : List Nat) (o : List Char) (w : Nat),
        b64DecodeChars id.toList = some bytes → utf8Decode bytes = some o →
        parseUnsigned (2 ^ 64) ((splitOnChar '+' o).headD []) = some w →
        (splitOnChar '+' o).get? 1 = none →
        decodeSubmitId id = .panic) := by
  refine ⟨decodeSubmitId_encodeSubmitId, ?_, ?_, ?_, ?_⟩
  · intro id hb
    unfold decodeSubmitId
    rw [hb, orPanic_none]
  · intro id bytes hb hu
    unfold decodeSubmitId
    rw [hb, orPanic_some, hu, orErr_none]
  · intro id bytes o hb hu hp
    unfold decodeSubmitId
    rw [hb, orPanic_some, hu, orErr_some, hp, orErr_none]
  · intro id bytes o w hb hu hp h1
    unfold decodeSubmitId
    rw [hb, orPanic_some, hu, orErr_some, hp, orErr_some, h1, orPanic_none]

/-- C1, witness: a concrete round trip, a concrete invalid-base64 panic, and
a concrete non-UTF-8 clean error (`"/w=="` is the base64 of the byte `0xFF`). -/
theorem C1_decode_behavior_witness :
    decodeSubmitId (encodeSubmitId 7 ⟨1000, 42, 9, 31⟩) = .ok 7 1000 42 9 31
    ∧ decodeSubmitId "!" = .panic
    ∧ decodeSubmitId "/w==" = .err (-1) "Invalid Worker ID" := by
  refine ⟨?_, ?_, ?_⟩
  · exact C1_decode_behavior.1 7 ⟨1000, 42, 9, 31⟩ (by norm_num) (by norm_num)
      (by norm_num) (by norm_num) (by norm_num)
  · exact C1_decode_behavior.2.1 "!" rfl
  · exact C1_decode_behavior.2.2.1 "/w==" [255] rfl rfl

/-- Dispatch: with a live stream, a non-`"Stratum"` id and method `"submit"`,
`process_message` runs the submit-response arm. -/
theorem processMessage_to_submit (st : ServerState) (workers : List Worker)
    (now : Nat) (f : UpFrame) (hs : st.hasStream = true) (hid : f.id ≠ "Stratum")
    (hm : f.method = "submit") :
    processMessage st workers now (.msg f) = processSubmitResponse st workers now f := by
  simp only [processMessage, hs, Bool.true_eq_false, if_false, if_neg hid, hm,
    String.reduceEq, reduceIte]

/-! ## Claim C2: request/response discrimination (corrected) -/

/-- C2, counterexample: a frame whose correlation id equals the session's own
pool identifier (`"Pool-1"`) with method `"job"` is **not** treated as an
inbound request — the job template is left unchanged and the call fails with
`-32600 Invalid Response` — because the request test compares the id against
the literal `"Stratum"`, never against the session's own id. -/
theorem C2_counterexample :
    processMessage
      { id := "Pool-1", hasStream := true, error := false,
        job := JobTemplate.new, status := WorkerStatus.new "Pool" }
      [] 0
      (.msg { id := "Pool-1", method := "job",
              params := some (.jobV { height := 100, job_id := 5, difficulty := 8 }),
              result := none, error := none })
    = { state :=
          { id := "Pool-1", hasStream := true, error := false,
            job := JobTemplate.new, status := WorkerStatus.new "Pool" },
        workers := [], published := [], sentOks := [],
        outcome := .err ⟨-32600, "Invalid Response"⟩ } := by
  rfl

/-- C2, amended: a frame is treated as an inbound request iff its correlation
id equals the literal string `"Stratum"` (the session's own pool identifier
is `"Pool-<n>"` and never matches): on such frames, method `"job"` with a
job-shaped params value replaces the current job template, and every other
method yields `MethodNotFound` with code `-32601`; a `"job"`-method frame
with any other id — including the session's own id — is dispatched as a
response and yields `-32600 Invalid Response`. -/
theorem C2_request_dispatch (st : ServerState) (workers : List Worker) (now : Nat)
    (f : UpFrame) (hs : st.hasStream = true) :
    (f.id = "Stratum" →
      (∀ j : JobTemplate, f.method = "job" → f.params = some (.jobV j) →
        processMessage st workers now (.msg f) =
          { state := { st with job := j }, workers := workers, published := [],
            sentOks := [], outcome := .ok f.method })
      ∧ (f.method ≠ "job" →
        processMessage st workers now (.msg f) =
          { state := st, workers := workers, published := [], sentOks := [],
            outcome := .err ⟨-32601, "Method not found: " ++ f.method⟩ }))
    ∧ (f.id ≠ "Stratum" → f.method = "job" →
        processMessage st workers now (.msg f) =
          { state := st, workers := workers, published := [], sentOks := [],
            outcome := .err ⟨-32600, "Invalid Response"⟩ }) := by
  refine ⟨fun hid => ⟨fun j hm hp => ?_, fun hm => ?_⟩, fun hid hm => ?_⟩
  · simp only [processMessage, hs, Bool.true_eq_false, if_false, if_pos hid,
      hm, String.reduceEq, reduceIte, hp]
  · simp only [processMessage, hs, Bool.true_eq_false, if_false, if_pos hid,
      if_neg hm]
  · simp only [processMessage, hs, Bool.true_eq_false, if_false, if_neg hid,
      hm, String.reduceEq, reduceIte]

/-- C2, witness: with session id `"Pool-1"`, a `"Stratum"`-id job push is
applied, a `"Stratum"`-id frame of another method is `-32601`, and the
behaviour of the counterexample frame follows from the amended theorem. -/
theorem C2_request_dispatch_witness :
    processMessage
      { id := "Pool-1", hasStream := true, error := false,
        job := JobTemplate.new, status := WorkerStatus.new "Pool" }
      [] 0
      (.msg { id := "Stratum", method := "job",
              params := some (.jobV { height := 100, job_id := 5, difficulty := 8 }),
              result := none, error := none })
    = { state :=
          { id := "Pool-1", hasStream := true, error := false,
            job := { height := 100, job_id := 5, difficulty := 8 },
            status := WorkerStatus.new "Pool" },
        workers := [], published := [], sentOks := [], outcome := .ok "job" }
    ∧ processMessage
      { id := "Pool-1", hasStream := true, error := false,
        job := JobTemplate.new, status := WorkerStatus.new "Pool" }
      [] 0
      (.msg { id := "Pool-1", method := "job",
              params := some (.jobV { height := 100, job_id := 5, difficulty := 8 }),
              result := none, error := none })
    = { state :=
          { id := "Pool-1", hasStream := true, error := false,
            job := JobTemplate.new, status := WorkerStatus.new "Pool" },
        workers := [], published := [], sentOks := [],
        outcome := .err ⟨-32600, "Invalid Response"⟩ } := by
  constructor
  · exact ((C2_request_dispatch _ [] 0 _ rfl).1 rfl).1
      { height := 100, job_id := 5, difficulty := 8 } rfl rfl
  · exact (C2_request_dispatch _ [] 0 _ rfl).2 (by decide) rfl

/-- `Share::new` on inputs whose three fallible conversions succeed. -/
theorem Share_new_some (jobId : Nat) (sidS addrS fnS : String) (wid diff : Nat)
    (res : SubmitResult) (h : Int) (ts : Nat) (sidn ipn : Nat) (fnc : List Char)
    (h1 : get_server_id sidS.toList = some sidn)
    (h2 : get_inet_addr addrS.toList = some ipn)
    (h3 : get_fullname fnS.toList = some fnc) :
    Share.new jobId sidS addrS wid diff fnS res h ts =
      some { job_id := jobId, worker_hash_id := 0, difficulty := diff, ip := ipn,
             user_id := usizeAsI32 wid, timestamp := ts, blkbits := 0,
             result := res.toI32, height := h, share_diff := 0, server_id := sidn,
             fullname := fnc } := by
  unfold Share.new
  simp only [h1, h2, h3]

/-- `finishSubmit` when the `Share` construction succeeds. -/
theorem finishSubmit_some (st : ServerState) (ws : List Worker) (now : Nat)
    (method : String) (jobId : Nat) (height : Int) (edgeBits : Nat) (w_id : Nat)
    (result : SubmitResult) (oks : List (Nat × String)) (sh : Share)
    (h : Share.new jobId st.id (ws.getD w_id dummyWorker).addr w_id
        (ws.getD w_id dummyWorker).status.difficulty (ws.getD w_id dummyWorker).loginName
        result height now = some sh) :
    finishSubmit st ws now method jobId height edgeBits w_id result oks =
      { state := st, workers := ws, published := [(edgeBits, sh)], sentOks := oks,
        outcome := .ok method } := by
  unfold finishSubmit
  simp only [h]

theorem bumpAccepted_getD (workers : List Worker) (i : Nat) (hi : i < workers.length) :
    (bumpAccepted workers i).getD i dummyWorker =
      { workers.getD i dummyWorker with
        status := { (workers.getD i dummyWorker).status with
          accepted := (workers.getD i dummyWorker).status.accepted + 1 } } := by
  unfold bumpAccepted
  exact updateAt_getD_eq workers i _ dummyWorker hi

theorem bumpStale_getD (workers : List Worker) (i : Nat) (hi : i < workers.length) :
    (bumpStale workers i).getD i dummyWorker =
      { workers.getD i dummyWorker with
        status := { (workers.getD i dummyWorker).status with
          stale := (workers.getD i dummyWorker).status.stale + 1 } } := by
  unfold bumpStale
  exact updateAt_getD_eq workers i _ dummyWorker hi

theorem bumpRejected_getD (workers : List Worker) (i : Nat) (hi : i < workers.length) :
    (bumpRejected workers i).getD i dummyWorker =
      { workers.getD i dummyWorker with
        status := { (workers.getD i dummyWorker).status with
          rejected := (workers.getD i dummyWorker).status.rejected + 1 } } := by
  unfold bumpRejected
  exact updateAt_getD_eq workers i _ dummyWorker hi

/-! ## Claim C3: accepted submit responses (confirmed) -/

/-- C3: for a submit response with a present `result` whose decoded worker id
is found in the registry at index `i` (and whose session id, worker address
and login convert without panicking), the worker's cumulative `accepted`
counter is bumped by exactly one and nothing else in the registry changes
(`bumpAccepted` touches only `status.accepted` of index `i`), an `"ok"`
acknowledgement is sent to that worker, and exactly one share with outcome
`Accept` (`result = 1`) is published. -/
theorem C3_accept_accounting (st : ServerState) (workers : List Worker)
    (now : Nat) (f : UpFrame) (w : Nat) (height : Int)
    (jobId nonce edgeBits i : Nat) (v : Val) (sidn ipn : Nat) (fnc : List Char)
    (hs : st.hasStream = true)
    (hid : f.id ≠ "Stratum")
    (hm : f.method = "submit")
    (hdec : decodeSubmitId f.id = .ok w height jobId nonce edgeBits)
    (hpos : position (fun wk => wk.id == w) workers = some i)
    (hres : f.result = some v)
    (hsid : get_server_id st.id.toList = some sidn)
    (hip : get_inet_addr ((workers.getD i dummyWorker).addr).toList = some ipn)
    (hfn : get_fullname ((workers.getD i dummyWorker).loginName).toList = some fnc) :
    processMessage st workers now (.msg f) =
      { state := st,
        workers := bumpAccepted workers i,
        published := [(edgeBits,
          { job_id := jobId, worker_hash_id := 0,
            difficulty := (workers.getD i dummyWorker).status.difficulty,
            ip := ipn, user_id := usizeAsI32 i, timestamp := now, blkbits := 0,
            result := SubmitResult.Accept.toI32, height := height, share_diff := 0,
            server_id := sidn, fullname := fnc })],
        sentOks := [(i, "submit")],
        outcome := .ok "submit" } := by
  have hi : i < workers.length := position_lt_length _ workers i hpos
  rw [processMessage_to_submit st workers now f hs hid hm]
  simp only [processSubmitResponse, hdec, hpos, hres]
  have hgd := bumpAccepted_getD workers i hi
  rw [finishSubmit_some st (bumpAccepted workers i) now f.method jobId height
    edgeBits i .Accept [(i, f.method)] _
    (by
      rw [hgd]
      exact Share_new_some jobId st.id (workers.getD i dummyWorker).addr
        (workers.getD i dummyWorker).loginName i
        (workers.getD i dummyWorker).status.difficulty .Accept height now sidn ipn fnc
        hsid hip hfn)]
  rw [hm]

/-- C3, witness: worker 7 at `1.2.3.4:5555`, session `"Pool-1"`, job 42 at
height 1000, nonce 9, edge bits 31, and an `"ok"` result. -/
theorem C3_accept_accounting_witness :
    processMessage
      { id := "Pool-1", hasStream := true, error := false,
        job := JobTemplate.new, status := WorkerStatus.new "Pool" }
      [Worker.new 7 "1.2.3.4:5555"] 77
      (.msg { id := encodeSubmitId 7 ⟨1000, 42, 9, 31⟩, method := "submit",
              params := none, result := some (.strV "ok"), error := none })
    = { state :=
          { id := "Pool-1", hasStream := true, error := false,
            job := JobTemplate.new, status := WorkerStatus.new "Pool" },
        workers := bumpAccepted [Worker.new 7 "1.2.3.4:5555"] 0,
        published := [(31,
          { job_id := 42, worker_hash_id := 0, difficulty := 0,
            ip := 67305985, user_id := 0, timestamp := 77, blkbits := 0,
            result := 1, height := 1000, share_diff := 0,
            server_id := 1,
            fullname := "None.__default__".toList ++
              List.replicate 30 (Char.ofNat 0) })],
        sentOks := [(0, "submit")],
        outcome := .ok "submit" } := by
  exact C3_accept_accounting
    { id := "Pool-1", hasStream := true, error := false,
      job := JobTemplate.new, status := WorkerStatus.new "Pool" }
    [Worker.new 7 "1.2.3.4:5555"] 77
    { id := encodeSubmitId 7 ⟨1000, 42, 9, 31⟩, method := "submit",
      params := none, result := some (.strV "ok"), error := none }
    7 1000 42 9 31 0 (.strV "ok") 1 67305985
    ("None.__default__".toList ++ List.replicate 30 (Char.ofNat 0))
    rfl (by decide) rfl (by decide) (by decide) rfl (by decide) (by decide) (by decide)

/-! ## Claim C4: rejected/stale submit responses (confirmed) -/

/-- C4: for a submit response carrying an embedded error whose decoded worker
id is found in the registry at index `i` (with panic-free conversions as in
C3), error code `-32503` bumps the worker's `stale` counter by exactly one
and any other code bumps `rejected` by exactly one (`bumpStale` and
`bumpRejected` touch only that one counter of index `i`); in both branches
exactly one share is constructed — from the values recovered from the
correlation id — and published, with outcome `Reject` (`result = 0`) and no
acknowledgement sent. -/
theorem C4_reject_accounting (st : ServerState) (workers : List Worker)
    (now : Nat) (f : UpFrame) (w : Nat) (height : Int)
    (jobId nonce edgeBits i : Nat) (e : RpcError) (sidn ipn : Nat) (fnc : List Char)
    (hs : st.hasStream = true)
    (hid : f.id ≠ "Stratum")
    (hm : f.method = "submit")
    (hdec : decodeSubmitId f.id = .ok w height jobId nonce edgeBits)
    (hpos : position (fun wk => wk.id == w) workers = some i)
    (hres : f.result = none)
    (herr : f.error = some (.errV e))
    (hsid : get_server_id st.id.toList = some sidn)
    (hip : get_inet_addr ((workers.getD i dummyWorker).addr).toList = some ipn)
    (hfn : get_fullname ((workers.getD i dummyWorker).loginName).toList = some fnc) :
    processMessage st workers now (.msg f) =
      { state := st,
        workers :=
          if e.code = -32503 then bumpStale workers i else bumpRejected workers i,
        published := [(edgeBits,
          { job_id := jobId, worker_hash_id := 0,
            difficulty := (workers.getD i dummyWorker).status.difficulty,
            ip := ipn, user_id := usizeAsI32 i, timestamp := now, blkbits := 0,
            result := SubmitResult.Reject.toI32, height := height, share_diff := 0,
            server_id := sidn, fullname := fnc })],
        sentOks := [],
        outcome := .ok "submit" } := by
  have hi : i < workers.length := position_lt_length _ workers i hpos
  rw [processMessage_to_submit st workers now f hs hid hm]
  simp only [processSubmitResponse, hdec, hpos, hres, herr]
  by_cases hc : e.code = -32503
  · rw [if_pos hc, if_pos hc]
    have hgd := bumpStale_getD workers i hi
    rw [finishSubmit_some st (bumpStale workers i) now f.method jobId height
      edgeBits i .Reject [] _
      (by
        rw [hgd]
        exact Share_new_some jobId st.id (workers.getD i dummyWorker).addr
          (workers.getD i dummyWorker).loginName i
          (workers.getD i dummyWorker).status.difficulty .Reject height now sidn ipn fnc
          hsid hip hfn)]
    rw [hm]
  · rw [if_neg hc, if_neg hc]
    have hgd := bumpRejected_getD workers i hi
    rw [finishSubmit_some st (bumpRejected workers i) now f.method jobId height
      edgeBits i .Reject [] _
      (by
        rw [hgd]
        exact Share_new_some jobId st.id (workers.getD i dummyWorker).addr
          (workers.getD i dummyWorker).loginName i
          (workers.getD i dummyWorker).status.difficulty .Reject height now sidn ipn fnc
          hsid hip hfn)]
    rw [hm]

/-- C4, witness: the same configuration as C3's witness with a stale-share
error (`-32503`) response. -/
theorem C4_reject_accounting_witness :
    processMessage
      { id := "Pool-1", hasStream := true, error := false,
        job := JobTemplate.new, status := WorkerStatus.new "Pool" }
      [Worker.new 7 "1.2.3.4:5555"] 77
      (.msg { id := encodeSubmitId 7 ⟨1000, 42, 9, 31⟩, method := "submit",
              params := none, result := none,
              error := some (.errV ⟨-32503, "late"⟩) })
    = { state :=
          { id := "Pool-1", hasStream := true, error := false,
            job := JobTemplate.new, status := WorkerStatus.new "Pool" },
        workers := bumpStale [Worker.new 7 "1.2.3.4:5555"] 0,
        published := [(31,
          { job_id := 42, worker_hash_id := 0, difficulty := 0,
            ip := 67305985, user_id := 0, timestamp := 77, blkbits := 0,
            result := 0, height := 1000, share_diff := 0,
            server_id := 1,
            fullname := "None.__default__".toList ++
              List.replicate 30 (Char.ofNat 0) })],
        sentOks := [],
        outcome := .ok "submit" } := by
  have h := C4_reject_accounting
    { id := "Pool-1", hasStream := true, error := false,
      job := JobTemplate.new, status := WorkerStatus.new "Pool" }
    [Worker.new 7 "1.2.3.4:5555"] 77
    { id := encodeSubmitId 7 ⟨1000, 42, 9, 31⟩, method := "submit",
      params := none, result := none, error := some (.errV ⟨-32503, "late"⟩) }
    7 1000 42 9 31 0 ⟨-32503, "late"⟩ 1 67305985
    ("None.__default__".toList ++ List.replicate 30 (Char.ofNat 0))
    rfl (by decide) rfl (by decide) (by decide) rfl rfl (by decide) (by decide) (by decide)
  rw [if_pos (by decide)] at h
  exact h

/-! ## Claim C5: unknown worker id on a submit response (confirmed) -/

/-- C5: for a submit response whose decoded worker id is present in no
registry entry, `process_message` returns the `Null Worker ID` error (code
`-32600`), leaves every worker untouched, publishes nothing and sends
nothing, and additionally sets the session's error flag. -/
theorem C5_null_worker (st : ServerState) (workers : List Worker)
    (now : Nat) (f : UpFrame) (w : Nat) (height : Int) (jobId nonce edgeBits : Nat)
    (hs : st.hasStream = true)
    (hid : f.id ≠ "Stratum")
    (hm : f.method = "submit")
    (hdec : decodeSubmitId f.id = .ok w height jobId nonce edgeBits)
    (habs : ∀ wk ∈ workers, wk.id ≠ w) :
    processMessage st workers now (.msg f) =
      { state := { st with error := true }, workers := workers, published := [],
        sentOks := [], outcome := .err ⟨-32600, "Null Worker ID"⟩ } := by
  rw [processMessage_to_submit st workers now f hs hid hm]
  have hpos : position (fun wk => wk.id == w) workers = none :=
    position_eq_none _ workers (fun wk hwk => by
      simp only [beq_eq_false_iff_ne, ne_eq]
      exact habs wk hwk)
  simp only [processSubmitResponse, hdec, hpos]

/-- C5, witness: a submit response for unknown worker id 9 against a
single-worker registry holding id 7. -/
theorem C5_null_worker_witness :
    processMessage
      { id := "Pool-1", hasStream := true, error := false,
        job := JobTemplate.new, status := WorkerStatus.new "Pool" }
      [Worker.new 7 "1.2.3.4:5555"] 77
      (.msg { id := encodeSubmitId 9 ⟨1000, 42, 9, 31⟩, method := "submit",
              params := none, result := some (.strV "ok"), error := none })
    = { state :=
          { id := "Pool-1", hasStream := true, error := true,
            job := JobTemplate.new, status := WorkerStatus.new "Pool" },
        workers := [Worker.new 7 "1.2.3.4:5555"], published := [],
        sentOks := [], outcome := .err ⟨-32600, "Null Worker ID"⟩ } := by
  exact C5_null_worker
    { id := "Pool-1", hasStream := true, error := false,
      job := JobTemplate.new, status := WorkerStatus.new "Pool" }
    [Worker.new 7 "1.2.3.4:5555"] 77
    { id := encodeSubmitId 9 ⟨1000, 42, 9, 31⟩, method := "submit",
      params := none, result := some (.strV "ok"), error := none }
    9 1000 42 9 31
    rfl (by decide) rfl (by decide) (by decide)

/-! ## Claim C10: submit responses mutate only the cumulative status (confirmed) -/

theorem sameExceptStatus_refl (a : Worker) : sameExceptStatus a a :=
  ⟨rfl, rfl, rfl, rfl, rfl, rfl, rfl, rfl⟩

/-- Updating only the `status` field of the worker at one index preserves
every other field of every worker. -/
theorem updateAt_status_same (workers : List Worker) (i : Nat)
    (g : WorkerStatus → WorkerStatus) (k : Nat) (hk : k < workers.length) :
    sameExceptStatus
      ((updateAt workers i (fun wk => { wk with status := g wk.status })).getD k dummyWorker)
      (workers.getD k dummyWorker) := by
  by_cases hik : i = k
  · subst hik
    rw [updateAt_getD_eq workers i _ dummyWorker hk]
    exact ⟨rfl, rfl, rfl, rfl, rfl, rfl, rfl, rfl⟩
  · rw [updateAt_getD_ne workers i k _ dummyWorker hik]
    exact sameExceptStatus_refl _

/-- C10: a submit-response frame (live stream, non-`"Stratum"` id, method
`"submit"`) never changes the number of registered workers, and for every
worker in the registry it leaves the per-block `block_status`, the login, the
error flag, the authenticated flag, the pending-share queue, the `needs_job`
flag and the address unchanged — whatever the decode, lookup, result and
publish outcomes are.  Only the lifetime-cumulative `status` may change. -/
theorem C10_submit_touches_only_status (st : ServerState) (workers : List Worker)
    (now : Nat) (f : UpFrame)
    (hs : st.hasStream = true) (hid : f.id ≠ "Stratum") (hm : f.method = "submit") :
    (processMessage st workers now (.msg f)).workers.length = workers.length
    ∧ ∀ k, k < workers.length →
      sameExceptStatus
        ((processMessage st workers now (.msg f)).workers.getD k dummyWorker)
        (workers.getD k dummyWorker) := by
  rw [processMessage_to_submit st workers now f hs hid hm]
  cases hdec : decodeSubmitId f.id with
  | panic =>
    simp only [processSubmitResponse, hdec]
    exact ⟨trivial, fun k hk => sameExceptStatus_refl _⟩
  | err c m =>
    simp only [processSubmitResponse, hdec]
    exact ⟨trivial, fun k hk => sameExceptStatus_refl _⟩
  | ok w height jobId nonce edgeBits =>
    cases hpos : position (fun wk => wk.id == w) workers with
    | none =>
      simp only [processSubmitResponse, hdec, hpos]
      exact ⟨trivial, fun k hk => sameExceptStatus_refl _⟩
    | some i =>
      cases hres : f.result with
      | some v =>
        simp only [processSubmitResponse, hdec, hpos, hres]
        rw [finishSubmit_workers]
        unfold bumpAccepted
        exact ⟨updateAt_length workers i _, fun k hk =>
          updateAt_status_same workers i (fun s => { s with accepted := s.accepted + 1 }) k hk⟩
      | none =>
        cases herr : f.error with
        | none =>
          simp only [processSubmitResponse, hdec, hpos, hres, herr]
          exact ⟨trivial, fun k hk => sameExceptStatus_refl _⟩
        | some val =>
          cases val with
          | errV e =>
            by_cases hc : e.code = -32503
            · simp only [processSubmitResponse, hdec, hpos, hres, herr, if_pos hc]
              rw [finishSubmit_workers]
              unfold bumpStale
              exact ⟨updateAt_length workers i _, fun k hk =>
                updateAt_status_same workers i (fun s => { s with stale := s.stale + 1 }) k hk⟩
            · simp only [processSubmitResponse, hdec, hpos, hres, herr, if_neg hc]
              rw [finishSubmit_workers]
              unfold bumpRejected
              exact ⟨updateAt_length workers i _, fun k hk =>
                updateAt_status_same workers i (fun s => { s with rejected := s.rejected + 1 }) k hk⟩
          | jobV j =>
            simp only [processSubmitResponse, hdec, hpos, hres, herr]
            exact ⟨trivial, fun k hk => sameExceptStatus_refl _⟩
          | statusV ws =>
            simp only [processSubmitResponse, hdec, hpos, hres, herr]
            exact ⟨trivial, fun k hk => sameExceptStatus_refl _⟩
          | strV s =>
            simp only [processSubmitResponse, hdec, hpos, hres, herr]
            exact ⟨trivial, fun k hk => sameExceptStatus_refl _⟩

/-- C10, witness: the accepted-share scenario of C3's witness touches neither
the worker count nor any non-`status` field of the single registered
worker. -/
theorem C10_submit_touches_only_status_witness :
    (processMessage
      { id := "Pool-1", hasStream := true, error := false,
        job := JobTemplate.new, status := WorkerStatus.new "Pool" }
      [Worker.new 7 "1.2.3.4:5555"] 77
      (.msg { id := encodeSubmitId 7 ⟨1000, 42, 9, 31⟩, method := "submit",
              params := none, result := some (.strV "ok"), error := none })).workers.length
      = 1
    ∧ sameExceptStatus
        ((processMessage
          { id := "Pool-1", hasStream := true, error := false,
            job := JobTemplate.new, status := WorkerStatus.new "Pool" }
          [Worker.new 7 "1.2.3.4:5555"] 77
          (.msg { id := encodeSubmitId 7 ⟨1000, 42, 9, 31⟩, method := "submit",
                  params := none, result := some (.strV "ok"),
                  error := none })).workers.getD 0 dummyWorker)
        ([Worker.new 7 "1.2.3.4:5555"].getD 0 dummyWorker) := by
  have h := C10_submit_touches_only_status
    { id := "Pool-1", hasStream := true, error := false,
      job := JobTemplate.new, status := WorkerStatus.new "Pool" }
    [Worker.new 7 "1.2.3.4:5555"] 77
    { id := encodeSubmitId 7 ⟨1000, 42, 9, 31⟩, method := "submit",
      params := none, result := some (.strV "ok"), error := none }
    rfl (by decide) rfl
  exact ⟨h.1, h.2 0 (by decide)⟩

/-! ## Claim C6: `Share::new` input validation (corrected) -/

/-- C6, counterexample: for the pool id `"Pool"` (not of the
`<prefix>-<number>` shape) `Share::new` panics — modelled `none`; there is no
`InvalidServerID` error value anywhere in its codomain.  And for a worker
address without a `:port` suffix — which the claim says is optional — it
panics as well instead of accepting it. -/
theorem C6_counterexample :
    Share.new 42 "Pool" "1.2.3.4:5555" 7 1000 "bob.rig" .Accept 100 5 = none
    ∧ Share.new 42 "Pool-1" "1.2.3.4" 7 1000 "bob.rig" .Accept 100 5 = none :=
  ⟨rfl, rfl⟩

/-- C6, amended: `Share::new` panics (modelled as `none`, no error value is
returned) whenever the pool id string has no `'-'`-separated second component
parsing as a `u16`, and whenever the worker address is malformed; the
`:port` suffix is mandatory — an address without `':'` panics.  For a valid
dotted-quad-with-port address the 32-bit ip field is composed with octet
order reversed relative to network byte order
(`a3*2^24 + a2*2^16 + a1*2^8 + a0` for `"a0.a1.a2.a3:port"`), and with all
three conversions succeeding the share is built from their results. -/
theorem C6_shareNew_behavior :
    (∀ (jobId : Nat) (sidS addrS fnS : String) (wid diff : Nat) (res : SubmitResult)
        (h : Int) (ts : Nat), get_server_id sidS.toList = none →
        Share.new jobId sidS addrS wid diff fnS res h ts = none)
    ∧ (∀ (jobId : Nat) (sidS addrS fnS : String) (wid diff : Nat) (res : SubmitResult)
        (h : Int) (ts : Nat), get_inet_addr addrS.toList = none →
        Share.new jobId sidS addrS wid diff fnS res h ts = none)
    ∧ (∀ addr : List Char, ':' ∉ addr → get_inet_addr addr = none)
    ∧ (∀ (a0 a1 a2 a3 : Nat) (port : List Char),
        a0 < 256 → a1 < 256 → a2 < 256 → a3 < 256 →
        get_inet_addr (natDigits a0 ++ '.' ::
            (natDigits a1 ++ '.' :: (natDigits a2 ++ '.' :: natDigits a3))
          ++ ':' :: port)
          = some (a3 * 16777216 + a2 * 65536 + a1 * 256 + a0))
    ∧ (∀ (jobId : Nat) (sidS addrS fnS : String) (wid diff : Nat) (res : SubmitResult)
        (h : Int) (ts : Nat) (sidn ipn : Nat) (fnc : List Char),
        get_server_id sidS.toList = some sidn →
        get_inet_addr addrS.toList = some ipn →
        get_fullname fnS.toList = some fnc →
        Share.new jobId sidS addrS wid diff fnS res h ts =
          some { job_id := jobId, worker_hash_id := 0, difficulty := diff, ip := ipn,
                 user_id := usizeAsI32 wid, timestamp := ts, blkbits := 0,
                 result := res.toI32, height := h, share_diff := 0, server_id := sidn,
                 fullname := fnc }) := by
  refine ⟨?_, ?_, ?_, ?_, ?_⟩
  · intro jobId sidS addrS fnS wid diff res h ts h1
    unfold Share.new
    rw [h1]
  · intro jobId sidS addrS fnS wid diff res h ts h2
    unfold Share.new
    cases get_server_id sidS.toList with
    | none => rfl
    | some sidn => rw [h2]
  · intro addr hcolon
    unfold get_inet_addr
    rw [splitOnChar_of_not_mem ':' addr hcolon]
    rfl
  · intro a0 a1 a2 a3 port h0 h1 h2 h3
    have hquad : ':' ∉ natDigits a0 ++ '.' ::
        (natDigits a1 ++ '.' :: (natDigits a2 ++ '.' :: natDigits a3)) := by
      simp only [List.mem_append, List.mem_cons]
      push_neg
      refine ⟨natDigits_not_mem a0 ':' (by simp), by decide,
        natDigits_not_mem a1 ':' (by simp), by decide,
        natDigits_not_mem a2 ':' (by simp), by decide,
        natDigits_not_mem a3 ':' (by simp)⟩
    unfold get_inet_addr
    rw [splitOnChar_append ':' _ port hquad]
    obtain ⟨g, gs, hg⟩ : ∃ g gs, splitOnChar ':' port = g :: gs := by
      cases hp : splitOnChar ':' port with
      | nil => exact absurd hp (splitOnChar_ne_nil ':' port)
      | cons g gs => exact ⟨g, gs, rfl⟩
    rw [hg]
    simp only [List.get?, List.headD]
    rw [splitOnChar_append '.' _ _ (natDigits_not_mem a0 '.' (by simp)),
      splitOnChar_append '.' _ _ (natDigits_not_mem a1 '.' (by simp)),
      splitOnChar_append '.' _ _ (natDigits_not_mem a2 '.' (by simp)),
      splitOnChar_of_not_mem '.' _ (natDigits_not_mem a3 '.' (by simp))]
    simp only [parseOctets, parseUnsigned_natDigits 256 a0 h0,
      parseUnsigned_natDigits 256 a1 h1, parseUnsigned_natDigits 256 a2 h2,
      parseUnsigned_natDigits 256 a3 h3, List.get?]
  · intro jobId sidS addrS fnS wid diff res h ts sidn ipn fnc h1 h2 h3
    exact Share_new_some jobId sidS addrS fnS wid diff res h ts sidn ipn fnc h1 h2 h3

/-- C6, witness: the counterexample pool id panics; `"1.2.3.4"` (no port)
panics inside `get_inet_addr`; `"1.2.3.4:5555"` yields the octet-reversed
value `0x04030201 = 67305985`. -/
theorem C6_shareNew_behavior_witness :
    Share.new 42 "Pool" "1.2.3.4:5555" 7 1000 "bob.rig" .Accept 100 5 = none
    ∧ get_inet_addr ("1.2.3.4".toList) = none
    ∧ get_inet_addr ("1.2.3.4:5555".toList) = some 67305985 := by
  refine ⟨?_, ?_, ?_⟩
  · exact C6_shareNew_behavior.1 42 "Pool" "1.2.3.4:5555" "bob.rig" 7 1000 .Accept 100 5 rfl
  · exact C6_shareNew_behavior.2.2.1 ("1.2.3.4".toList) (by decide)
  · exact C6_shareNew_behavior.2.2.2.1 1 2 3 4 ("5555".toList)
      (by norm_num) (by norm_num) (by norm_num) (by norm_num)

/-! ## Claim C7: fixed-width full-name buffer (confirmed) -/

/-- `get_fullname` on success yields exactly `FULLNAME_LIMIT` characters,
null-padded when the name is shorter. -/
theorem get_fullname_spec (s : List Char) (arr : List Char)
    (h : get_fullname s = some arr) :
    arr.length = FULLNAME_LIMIT
    ∧ (byteLen s < FULLNAME_LIMIT →
        arr = s ++ List.replicate (FULLNAME_LIMIT - byteLen s) (Char.ofNat 0)) := by
  have h' : (if (if byteLen s < FULLNAME_LIMIT then
      s ++ List.replicate (FULLNAME_LIMIT - byteLen s) (Char.ofNat 0) else s).length
      = FULLNAME_LIMIT then
    some (if byteLen s < FULLNAME_LIMIT then
      s ++ List.replicate (FULLNAME_LIMIT - byteLen s) (Char.ofNat 0) else s)
    else none) = some arr := h
  clear h
  split at h'
  · rename_i hshort
    split at h'
    · rename_i hlen
      injection h' with h'
      subst h'
      exact ⟨hlen, fun _ => rfl⟩
    · exact Option.noConfusion h'
  · rename_i hlong
    split at h'
    · rename_i hlen
      injection h' with h'
      subst h'
      exact ⟨hlen, fun hs => absurd hs hlong⟩
    · exact Option.noConfusion h'

/-- A successful `Share::new` passes its full name through `get_fullname`. -/
theorem Share_new_fullname (jobId : Nat) (sidS addrS fnS : String)
    (wid diff : Nat) (res : SubmitResult) (h : Int) (ts : Nat) (sh : Share)
    (hsh : Share.new jobId sidS addrS wid diff fnS res h ts = some sh) :
    get_fullname fnS.toList = some sh.fullname := by
  unfold Share.new at hsh
  split at hsh
  · exact Option.noConfusion hsh
  · split at hsh
    · exact Option.noConfusion hsh
    · split at hsh
      · exact Option.noConfusion hsh
      · rename_i fn' heq
        injection hsh with hsh
        subst hsh
        exact heq

/-- C7: every constructed share's full-name buffer holds exactly
`FULLNAME_LIMIT` characters, with shorter names null-padded up to the limit;
a name longer than `FULLNAME_LIMIT` characters makes `get_fullname` — and
hence the whole construction — fail (`copy_from_slice` panics), so a long
name is never silently truncated into a share. -/
theorem C7_fullname_buffer :
    (∀ (jobId : Nat) (sidS addrS fnS : String) (wid diff : Nat) (res : SubmitResult)
        (h : Int) (ts : Nat) (sh : Share),
        Share.new jobId sidS addrS wid diff fnS res h ts = some sh →
        sh.fullname.length = FULLNAME_LIMIT
        ∧ (byteLen fnS.toList < FULLNAME_LIMIT →
            sh.fullname = fnS.toList ++
              List.replicate (FULLNAME_LIMIT - byteLen fnS.toList) (Char.ofNat 0)))
    ∧ (∀ fn : List Char, FULLNAME_LIMIT < fn.length → get_fullname fn = none)
    ∧ (∀ (jobId : Nat) (sidS addrS fnS : String) (wid diff : Nat) (res : SubmitResult)
        (h : Int) (ts : Nat), FULLNAME_LIMIT < fnS.toList.length →
        Share.new jobId sidS addrS wid diff fnS res h ts = none) := by
  have hnone : ∀ fn : List Char, FULLNAME_LIMIT < fn.length → get_fullname fn = none := by
    intro fn hlen
    have hbyte := length_le_byteLen fn
    have hpad : ¬ (byteLen fn < FULLNAME_LIMIT) := by omega
    show (if (if byteLen fn < FULLNAME_LIMIT then
        fn ++ List.replicate (FULLNAME_LIMIT - byteLen fn) (Char.ofNat 0) else fn).length
        = FULLNAME_LIMIT then
      some (if byteLen fn < FULLNAME_LIMIT then
        fn ++ List.replicate (FULLNAME_LIMIT - byteLen fn) (Char.ofNat 0) else fn)
      else none) = none
    rw [if_neg hpad, if_neg (by omega)]
  refine ⟨?_, hnone, ?_⟩
  · intro jobId sidS addrS fnS wid diff res h ts sh hsh
    exact get_fullname_spec fnS.toList sh.fullname
      (Share_new_fullname jobId sidS addrS fnS wid diff res h ts sh hsh)
  · intro jobId sidS addrS fnS wid diff res h ts hlen
    unfold Share.new
    cases get_server_id sidS.toList with
    | none => rfl
    | some sidn =>
      cases get_inet_addr addrS.toList with
      | none => rfl
      | some ipn =>
        rw [hnone fnS.toList hlen]

/-- C7, witness: a concrete successful construction has a 46-character
buffer, and a 47-character name fails construction. -/
theorem C7_fullname_buffer_witness :
    (∃ sh, Share.new 42 "Pool-1" "1.2.3.4:5555" 7 1000 "bob.rig" .Accept 100 5 = some sh
      ∧ sh.fullname.length = FULLNAME_LIMIT)
    ∧ get_fullname (List.replicate 47 'a') = none := by
  constructor
  · obtain ⟨sh, hsh⟩ : ∃ sh,
        Share.new 42 "Pool-1" "1.2.3.4:5555" 7 1000 "bob.rig" .Accept 100 5 = some sh :=
      ⟨_, rfl⟩
    exact ⟨sh, hsh,
      (C7_fullname_buffer.1 42 "Pool-1" "1.2.3.4:5555" "bob.rig" 7 1000 .Accept 100 5 sh hsh).1⟩
  · exact C7_fullname_buffer.2.1 (List.replicate 47 'a') (by decide)

/-! ## Claim C8: login full-name validation (corrected) -/

theorem legalUsernameChars_ascii : ∀ c ∈ legalUsernameChars, c.toNat < 128 := by
  decide

theorem legalWorkernameChars_ascii : ∀ c ∈ legalWorkernameChars, c.toNat < 128 := by
  decide

/-- A string drawn from the username charset passes `validate_legal_string`. -/
theorem validate_legal_string_of_subset (u legal : List Char)
    (hsp : ' ' ∉ legal)
    (hall : u.all (fun c => legal.contains c) = true) :
    validate_legal_string u legal = true := by
  unfold validate_legal_string
  have hleg : legal.filter (fun c => c ≠ ' ') = legal := by
    rw [List.filter_eq_self]
    intro a ha
    simp only [ne_eq, decide_eq_true_eq]
    exact fun hsp' => hsp (hsp' ▸ ha)
  have hu : u.filter (fun c => c ≠ ' ') = u := by
    rw [List.filter_eq_self]
    intro a ha
    simp only [List.all_eq_true] at hall
    have hmem : a ∈ legal := by simpa using hall a ha
    simp only [ne_eq, decide_eq_true_eq]
    exact fun hsp' => hsp (hsp' ▸ hmem)
  rw [hleg, hu]
  exact hall

theorem validate_username_of_valid (u : List Char) (hne : u ≠ [])
    (hlen : u.length ≤ 20)
    (hall : u.all (fun c => legalUsernameChars.contains c) = true) :
    validate_username u = true := by
  have hascii : ∀ c ∈ u, c.toNat < 128 := by
    intro c hc
    simp only [List.all_eq_true] at hall
    have hmem : c ∈ legalUsernameChars := by simpa using hall c hc
    exact legalUsernameChars_ascii c hmem
  unfold validate_username
  rw [if_neg]
  · exact validate_legal_string_of_subset u legalUsernameChars (by decide) hall
  · rw [byteLen_of_ascii u hascii]
    simp only [Bool.or_eq_true, decide_eq_true_eq, not_or]
    constructor
    · simp [hne]
    · omega

theorem validate_workername_of_valid (wn : List Char) (hne : wn ≠ [])
    (hlen : wn.length ≤ 18)
    (hall : wn.all (fun c => legalWorkernameChars.contains c) = true) :
    validate_workername wn = true := by
  have hascii : ∀ c ∈ wn, c.toNat < 128 := by
    intro c hc
    simp only [List.all_eq_true] at hall
    have hmem : c ∈ legalWorkernameChars := by simpa using hall c hc
    exact legalWorkernameChars_ascii c hmem
  unfold validate_workername
  rw [if_neg]
  · exact validate_legal_string_of_subset wn legalWorkernameChars (by decide) hall
  · rw [byteLen_of_ascii wn hascii]
    simp only [Bool.or_eq_true, decide_eq_true_eq, not_or]
    constructor
    · simp [hne]
    · omega

/-- C8, counterexample: the login `"a b.w"` has a username containing a
space, which is outside the claimed username charset, so per the claim it
must be rejected — but `validate_fullname` accepts it (spaces are stripped
by `validate_legal_string` before the charset check). -/
theorem C8_counterexample :
    validate_fullname { login := "a b.w", pass := "x", agent := "y" }
      = (true, { login := "a b.w", pass := "x", agent := "y" }) := by
  rfl

/-- C8, amended: a login splitting into a dot-free username of 1–20
characters from the username charset and a dot-free workername of 1–18
characters from the workername charset is accepted with the login unchanged;
a login with no workername part whose username is valid is accepted with
`".__default__"` appended; a username over 20 bytes is rejected; and every
rejection leaves the `LoginParams` unmutated.  (Unlike the claim, charset
violations by the space character alone do not cause rejection, spaces being
stripped before the subset check; and only the part between the first and
second dot is ever validated as the workername.) -/
theorem C8_validate_fullname :
    (∀ (u wn : List Char) (p a : String),
      '.' ∉ u → '.' ∉ wn → u ≠ [] → u.length ≤ 20 →
      u.all (fun c => legalUsernameChars.contains c) = true →
      wn ≠ [] → wn.length ≤ 18 →
      wn.all (fun c => legalWorkernameChars.contains c) = true →
      validate_fullname { login := (u ++ '.' :: wn).asString, pass := p, agent := a }
        = (true, { login := (u ++ '.' :: wn).asString, pass := p, agent := a }))
    ∧ (∀ (u : List Char) (p a : String),
      '.' ∉ u → u ≠ [] → u.length ≤ 20 →
      u.all (fun c => legalUsernameChars.contains c) = true →
      validate_fullname { login := u.asString, pass := p, agent := a }
        = (true, { login := (u ++ '.' :: "__default__".toList).asString,
                   pass := p, agent := a }))
    ∧ (∀ (u wn : List Char) (p a : String),
      '.' ∉ u → 20 < byteLen u →
      validate_fullname { login := (u ++ '.' :: wn).asString, pass := p, agent := a }
        = (false, { login := (u ++ '.' :: wn).asString, pass := p, agent := a }))
    ∧ (∀ lp : LoginParams,
      (validate_fullname lp).1 = false → (validate_fullname lp).2 = lp) := by
  refine ⟨?_, ?_, ?_, ?_⟩
  · intro u wn p a hu hw hune hulen huall hwne hwlen hwall
    have hsplit : splitOnChar '.' (((u ++ '.' :: wn).asString) : String).toList
        = [u, wn] := by
      rw [show (((u ++ '.' :: wn).asString) : String).toList = u ++ '.' :: wn from rfl,
        splitOnChar_append '.' u wn hu, splitOnChar_of_not_mem '.' wn hw]
    simp only [validate_fullname, hsplit, List.length_cons, List.length_singleton,
      List.headD, List.get?, Option.getD]
    rw [if_pos (by omega)]
    rw [validate_username_of_valid u hune hulen huall,
      validate_workername_of_valid wn hwne hwlen hwall]
    rfl
  · intro u p a hu hune hulen huall
    have hsplit : splitOnChar '.' ((u.asString : String)).toList = [u] := by
      rw [show ((u.asString : String)).toList = u from rfl,
        splitOnChar_of_not_mem '.' u hu]
    simp only [validate_fullname, hsplit, List.length_singleton, List.headD]
    rw [if_neg (by omega)]
    rw [validate_username_of_valid u hune hulen huall,
      validate_workername_of_valid ("__default__".toList) (by decide) (by decide)
        (by decide)]
    rfl
  · intro u wn p a hu hlen
    have hsplit : splitOnChar '.' (((u ++ '.' :: wn).asString) : String).toList
        = u :: splitOnChar '.' wn := by
      rw [show (((u ++ '.' :: wn).asString) : String).toList = u ++ '.' :: wn from rfl,
        splitOnChar_append '.' u wn hu]
    have hlong : validate_username u = false := by
      unfold validate_username
      rw [if_pos]
      simp
      omega
    simp only [validate_fullname, hsplit, List.length_cons, List.headD]
    rw [if_pos]
    · rw [hlong]
      rfl
    · have := splitOnChar_ne_nil '.' wn
      have : 0 < (splitOnChar '.' wn).length := List.length_pos.mpr this
      omega
  · intro lp
    simp only [validate_fullname]
    split
    · split
      · intro h
        exact absurd h (by simp)
      · intro _
        rfl
    · split
      · intro h
        exact absurd h (by simp)
      · intro _
        rfl

/-- C8, witness: `"alice.rig1"` accepted unchanged, `"bob"` normalized to
`"bob.__default__"`, and an over-long username rejected with the login left
unmutated. -/
theorem C8_validate_fullname_witness :
    validate_fullname { login := "alice.rig1", pass := "x", agent := "y" }
      = (true, { login := "alice.rig1", pass := "x", agent := "y" })
    ∧ validate_fullname { login := "bob", pass := "x", agent := "y" }
      = (true, { login := "bob.__default__", pass := "x", agent := "y" })
    ∧ validate_fullname
        { login := "averyveryverylongusername.rig", pass := "x", agent := "y" }
      = (false, { login := "averyveryverylongusername.rig", pass := "x", agent := "y" }) := by
  refine ⟨?_, ?_, ?_⟩
  · exact C8_validate_fullname.1 ("alice".toList) ("rig1".toList) "x" "y"
      (by decide) (by decide) (by decide) (by decide) (by decide)
      (by decide) (by decide) (by decide)
  · exact C8_validate_fullname.2.1 ("bob".toList) "x" "y"
      (by decide) (by decide) (by decide) (by decide)
  · exact C8_validate_fullname.2.2.1 ("averyveryverylongusername".toList)
      ("rig".toList) "x" "y" (by decide) (by decide)

/-! ## Claim C9: worker submit payloads (confirmed) -/

/-- C9: on a `"submit"` request carrying a payload, a payload that parses as
a submission record is appended to the pending-share queue and the call
returns `Ok`; a payload that fails to parse is dropped — the worker session
(in particular its error flag and its queue) is completely unchanged, the
call still returns `Ok`, and nothing terminates the connection. -/
theorem C9_submit_payload (w : Worker) :
    (∀ p : SubmitParams,
      Worker.processSubmit w (some (.ok p))
        = ({ w with shares := w.shares ++ [p] }, .retOk))
    ∧ (∀ e : String, Worker.processSubmit w (some (.error e)) = (w, .retOk)) :=
  ⟨fun _ => rfl, fun _ => rfl⟩

end GrinPool
